import Mathlib

/-!
Verification of the aoe_orch_control Telegram gateway against its
natural-language specification.  The Python sources under
`scripts/gateway/` are shallowly embedded below: pure helper functions
become Lean functions over `String`, `List` and `Finset`; dictionary
states become structures with `Option` fields; machine integers become
`Int`/`Nat`.  Each claim of the specification is then stated and settled
as a theorem about these definitions.
-/

namespace AoeGateway

/-! ## Python string primitives

`py_strip` and `py_lower` embed Python's `str.strip()` / `str.lower()`
as structural list computations (Lean's own `String.trim` is defined
through well-founded `Substring` recursion and does not reduce inside
`decide`, so the direct list form is used everywhere instead). -/

def py_strip_chars (l : List Char) : List Char :=
  ((l.dropWhile Char.isWhitespace).reverse.dropWhile Char.isWhitespace).reverse

def py_strip (s : String) : String :=
  String.mk (py_strip_chars s.data)

/-- Python `str.lower()` on one character, restricted to the ASCII
mapping (non-ASCII characters, in particular the Korean filler words the
gateway handles, are case-less and left unchanged). -/
def py_char_lower (c : Char) : Char :=
  match c with
  | 'A' => 'a' | 'B' => 'b' | 'C' => 'c' | 'D' => 'd' | 'E' => 'e' | 'F' => 'f'
  | 'G' => 'g' | 'H' => 'h' | 'I' => 'i' | 'J' => 'j' | 'K' => 'k' | 'L' => 'l'
  | 'M' => 'm' | 'N' => 'n' | 'O' => 'o' | 'P' => 'p' | 'Q' => 'q' | 'R' => 'r'
  | 'S' => 's' | 'T' => 't' | 'U' => 'u' | 'V' => 'v' | 'W' => 'w' | 'X' => 'x'
  | 'Y' => 'y' | 'Z' => 'z'
  | other => other

def py_lower (s : String) : String :=
  String.mk (s.data.map py_char_lower)

/-- Python's Unicode `str.isalnum()` as used by the gateway: exact on
ASCII, and treating every non-ASCII character (e.g. Hangul) as
alphanumeric. -/
def py_isalnum (c : Char) : Bool :=
  c.isAlphanum || decide (128 ≤ c.toNat)

/-! ## ACL helpers (`aoe_tg_acl.py`) -/

/-- `is_valid_chat_id`: full match of `-?\d{5,20}` on the stripped token. -/
def is_valid_chat_id (raw : String) : Bool :=
  match py_strip_chars raw.data with
  | [] => false
  | c :: rest =>
    let ds := if c = '-' then rest else c :: rest
    decide (5 ≤ ds.length) && decide (ds.length ≤ 20) && ds.all Char.isDigit

/-- `normalize_owner_chat_id`: the stripped token when it is a valid chat id, else empty. -/
def normalize_owner_chat_id (raw : String) : String :=
  let token := py_strip raw
  if is_valid_chat_id token then token else ""

/-- `resolve_role_from_acl_sets` (aoe_tg_acl.py lines 100-119). -/
def resolve_role_from_acl_sets (chat_id : String)
    (allow_chat_ids admin_chat_ids readonly_chat_ids : Finset String)
    (deny_by_default : Bool) : String :=
  let cid := py_strip chat_id
  if cid = "" then "unknown"
  else if cid ∈ admin_chat_ids then "admin"
  else if cid ∈ readonly_chat_ids then "readonly"
  else if cid ∈ allow_chat_ids then "admin"
  else if allow_chat_ids = ∅ ∧ admin_chat_ids = ∅ ∧ readonly_chat_ids = ∅ ∧
      deny_by_default = false then "admin"
  else "unknown"

/-- `is_owner_chat` (gateway lines 3583-3585). -/
def is_owner_chat (chat_id : String) (owner_chat_id : String) : Bool :=
  let owner := normalize_owner_chat_id owner_chat_id
  owner ≠ "" && py_strip chat_id = owner

/-- `resolve_chat_role` (gateway lines 3588-3597). -/
def resolve_chat_role (chat_id : String)
    (allow_chat_ids admin_chat_ids readonly_chat_ids : Finset String)
    (deny_by_default : Bool) (owner_chat_id : String) : String :=
  if is_owner_chat chat_id owner_chat_id then "owner"
  else resolve_role_from_acl_sets chat_id allow_chat_ids admin_chat_ids
    readonly_chat_ids deny_by_default

/-- `READONLY_ALLOWED_COMMANDS` (gateway lines 88-105). -/
def readonly_allowed_commands : List String :=
  ["start", "help", "orch-help", "mode", "whoami", "acl", "status",
   "orch-status", "request", "orch-list", "orch-monitor", "orch-kpi",
   "orch-check", "orch-task", "orch-pick", "cancel-pending"]

/-- `enforce_command_auth` (aoe_tg_message_flow.py lines 76-119); `true`
means the command was rejected with a permission-denied reply and an
`auth_denied`/`E_AUTH` event. -/
def enforce_command_auth (cmd_key chat_role : String)
    (allow_nonempty : Bool) (owner_chat_id : String) (owner_match : Bool) : Bool :=
  if chat_role = "unknown" ∧
      cmd_key ∉ (["start", "help", "whoami", "lockme"] : List String) then
    true
  else if chat_role ≠ "unknown" ∧ cmd_key = "lockme" ∧ allow_nonempty = true ∧
      chat_role ∉ (["admin", "owner"] : List String) then
    true
  else if cmd_key ∈ (["lockme", "grant", "revoke"] : List String) ∧
      py_strip owner_chat_id ≠ "" then
    ¬ owner_match
  else if chat_role = "readonly" ∧ cmd_key ∉ readonly_allowed_commands then
    true
  else
    false

/-! ## ACL mutations (`aoe_tg_management_handlers.py`) -/

/-- The readonly comprehension applied after every grant/revoke mutation:
`readonly := those x in readonly with x not in admin and x not in allow`. -/
def acl_post_readonly_filter (a b r : Finset String) :
    Finset String × Finset String × Finset String :=
  (a, b, r.filter (fun x => x ∉ b ∧ x ∉ a))

/-- The `grant` branch of `handle_management_command` (lines 207-234):
scope-specific insert/discard followed by the unconditional filter that
drops from `readonly` everything present in `admin` or `allow`.
`none` models the usage error raised on an invalid scope. -/
def acl_grant_sets (scope target : String)
    (allow admin readonly : Finset String) :
    Option (Finset String × Finset String × Finset String) :=
  if scope = "allow" then
    some (acl_post_readonly_filter (insert target allow) admin (readonly.erase target))
  else if scope = "admin" then
    some (acl_post_readonly_filter allow (insert target admin) (readonly.erase target))
  else if scope = "readonly" then
    some (acl_post_readonly_filter (allow.erase target) (admin.erase target)
      (insert target readonly))
  else none

/-- The scope-directed discards of the `revoke` branch (lines 278-287). -/
def acl_revoke_discards (scope target : String)
    (allow admin readonly : Finset String) :
    Finset String × Finset String × Finset String :=
  (if scope = "allow" ∨ scope = "all" then allow.erase target else allow,
   if scope = "admin" ∨ scope = "all" then admin.erase target else admin,
   if scope = "readonly" ∨ scope = "all" then readonly.erase target else readonly)

/-- The `revoke` branch of `handle_management_command` (lines 264-310):
discards per scope, the deny-by-default self-revoke guard (which leaves
the sets unchanged), and the final readonly filter.  `none` models the
usage error on an invalid scope. -/
def acl_revoke_sets (scope target chat_id : String)
    (allow admin readonly : Finset String)
    (deny_by_default : Bool) (owner_match : Bool) :
    Option (Finset String × Finset String × Finset String) :=
  if scope ∉ (["allow", "admin", "readonly", "all"] : List String) then none
  else
    let next := acl_revoke_discards scope target allow admin readonly
    if deny_by_default = true ∧ target = chat_id ∧ owner_match = false ∧
        resolve_role_from_acl_sets chat_id next.1 next.2.1 next.2.2 true ≠ "admin" then
      some (allow, admin, readonly)
    else
      some (acl_post_readonly_filter next.1 next.2.1 next.2.2)

/-- The `lockme` branch of `handle_management_command` (lines 339-347). -/
def acl_lockme_sets (chat_id : String) :
    Finset String × Finset String × Finset String :=
  ({chat_id}, ∅, ∅)

lemma acl_post_readonly_filter_disjoint {a b r : Finset String}
    (X Y Z : Finset String) (h : acl_post_readonly_filter X Y Z = (a, b, r)) :
    r ∩ (b ∪ a) = ∅ := by
  simp only [acl_post_readonly_filter, Prod.mk.injEq] at h
  obtain ⟨ha, hb, hr⟩ := h
  subst ha; subst hb; subst hr
  ext x
  simp only [Finset.mem_inter, Finset.mem_filter, Finset.mem_union,
    Finset.not_mem_empty, iff_false]
  tauto

/-- C9: for a non-empty chat id belonging to none of the three ACL sets,
`resolve_role_from_acl_sets` returns `admin` exactly when all three sets
are empty and `deny_by_default` is false, and `unknown` in every other
such case. -/
theorem c9_default_admin_role (cid : String)
    (allow admin readonly : Finset String) (deny : Bool)
    (h1 : py_strip cid ≠ "") (h2 : py_strip cid ∉ allow) (h3 : py_strip cid ∉ admin)
    (h4 : py_strip cid ∉ readonly) :
    (resolve_role_from_acl_sets cid allow admin readonly deny = "admin" ↔
      (allow = ∅ ∧ admin = ∅ ∧ readonly = ∅ ∧ deny = false)) ∧
    (¬ (allow = ∅ ∧ admin = ∅ ∧ readonly = ∅ ∧ deny = false) →
      resolve_role_from_acl_sets cid allow admin readonly deny = "unknown") := by
  have e : resolve_role_from_acl_sets cid allow admin readonly deny =
      if allow = ∅ ∧ admin = ∅ ∧ readonly = ∅ ∧ deny = false then "admin"
      else "unknown" := by
    simp only [resolve_role_from_acl_sets]
    rw [if_neg h1, if_neg h3, if_neg h4, if_neg h2]
  rw [e]
  refine ⟨⟨fun h => ?_, fun h => by rw [if_pos h]⟩, fun h => by rw [if_neg h]⟩
  by_contra hc
  rw [if_neg hc] at h
  exact absurd h (by decide)

/-- C9 witness: with every set empty and `deny_by_default` off, the chat
id `12345` (in no set) resolves to `admin`. -/
theorem c9_default_admin_role_witness :
    (resolve_role_from_acl_sets "12345" ∅ ∅ ∅ false = "admin" ↔
      ((∅ : Finset String) = ∅ ∧ (∅ : Finset String) = ∅ ∧
        (∅ : Finset String) = ∅ ∧ false = false)) ∧
    (¬ ((∅ : Finset String) = ∅ ∧ (∅ : Finset String) = ∅ ∧
        (∅ : Finset String) = ∅ ∧ false = false) →
      resolve_role_from_acl_sets "12345" ∅ ∅ ∅ false = "unknown") :=
  c9_default_admin_role "12345" ∅ ∅ ∅ false (by decide)
    (by simp) (by simp) (by simp)

/-- C4: after a grant of any scope, a revoke of any scope (including the
guard-blocked self-revoke case), and lockme, the readonly set is disjoint
from the union of the admin and allow sets. -/
theorem c4_acl_mutations_preserve_disjointness (scope target chat_id : String)
    (allow admin readonly : Finset String) (deny owner_match : Bool)
    (hdis : readonly ∩ (admin ∪ allow) = ∅) :
    (∀ a b r, acl_grant_sets scope target allow admin readonly = some (a, b, r) →
      r ∩ (b ∪ a) = ∅) ∧
    (∀ a b r, acl_revoke_sets scope target chat_id allow admin readonly deny owner_match
        = some (a, b, r) → r ∩ (b ∪ a) = ∅) ∧
    ((acl_lockme_sets chat_id).2.2 ∩
      ((acl_lockme_sets chat_id).2.1 ∪ (acl_lockme_sets chat_id).1) = ∅) := by
  refine ⟨?_, ?_, by simp [acl_lockme_sets]⟩
  · intro a b r h
    unfold acl_grant_sets at h
    split_ifs at h
    · exact acl_post_readonly_filter_disjoint _ _ _ (Option.some.inj h)
    · exact acl_post_readonly_filter_disjoint _ _ _ (Option.some.inj h)
    · exact acl_post_readonly_filter_disjoint _ _ _ (Option.some.inj h)
  · intro a b r h
    simp only [acl_revoke_sets] at h
    split_ifs at h
    · have h2 := Option.some.inj h
      simp only [Prod.mk.injEq] at h2
      obtain ⟨ha, hb, hr⟩ := h2
      subst ha; subst hb; subst hr
      exact hdis
    · exact acl_post_readonly_filter_disjoint _ _ _ (Option.some.inj h)

/-- C4 witness: granting readonly to a chat already in allow keeps the
invariant on concrete sets. -/
theorem c4_acl_mutations_preserve_disjointness_witness :
    (∀ a b r, acl_grant_sets "readonly" "111" {"111", "222"} {"333"} ∅ = some (a, b, r) →
      r ∩ (b ∪ a) = ∅) ∧
    (∀ a b r, acl_revoke_sets "readonly" "111" "999" {"111", "222"} {"333"} ∅ true false
        = some (a, b, r) → r ∩ (b ∪ a) = ∅) ∧
    ((acl_lockme_sets "999").2.2 ∩
      ((acl_lockme_sets "999").2.1 ∪ (acl_lockme_sets "999").1) = ∅) :=
  c4_acl_mutations_preserve_disjointness "readonly" "111" "999"
    {"111", "222"} {"333"} ∅ true false (by decide)

lemma resolve_chat_role_cases (chat owner : String)
    (allow admin readonly : Finset String) (deny : Bool) :
    resolve_chat_role chat allow admin readonly deny owner = "owner" ∨
    resolve_chat_role chat allow admin readonly deny owner = "admin" ∨
    resolve_chat_role chat allow admin readonly deny owner = "readonly" ∨
    resolve_chat_role chat allow admin readonly deny owner = "unknown" := by
  simp only [resolve_chat_role, resolve_role_from_acl_sets]
  split_ifs <;> simp

/-- C5 counterexample: with `admin = set containing 123456` (so the ACL is
non-empty), `allow` and `readonly` empty and no owner configured, the chat
`99999` resolves to role `unknown` — neither admin nor owner — and yet
`enforce_command_auth` accepts its `/lockme` (returns `false`, i.e. no
permission-denied rejection), because `lockme` is in the unknown-role
allowlist and the lockme guard only tests the allow set. -/
theorem c5_lockme_auth_counterexample :
    ¬ (({"123456"} : Finset String) = ∅) ∧
    resolve_chat_role "99999" ∅ {"123456"} ∅ false "" = "unknown" ∧
    enforce_command_auth "lockme" (resolve_chat_role "99999" ∅ {"123456"} ∅ false "")
      (decide ((∅ : Finset String) ≠ ∅)) "" (is_owner_chat "99999" "") = false := by
  refine ⟨by simp, by decide, by decide⟩

/-- C5 amended: when the ACL is non-empty, a `/lockme` that passes
`enforce_command_auth` can only come from a chat whose resolved role is
admin, owner, or unknown (the unknown case survives the gate because
`lockme` is on the unknown-role allowlist; such chats are normally
filtered earlier by `ensure_chat_allowed`); a readonly-role chat is
always rejected with the permission-denied reply and `auth_denied`/`E_AUTH`
event. -/
theorem c5_lockme_auth_amended (chat owner : String)
    (allow admin readonly : Finset String) (deny : Bool)
    (_hne : ¬ (allow = ∅ ∧ admin = ∅ ∧ readonly = ∅)) :
    (enforce_command_auth "lockme" (resolve_chat_role chat allow admin readonly deny owner)
        (decide (allow ≠ ∅)) owner (is_owner_chat chat owner) = false →
      resolve_chat_role chat allow admin readonly deny owner = "admin" ∨
      resolve_chat_role chat allow admin readonly deny owner = "owner" ∨
      resolve_chat_role chat allow admin readonly deny owner = "unknown") ∧
    (resolve_chat_role chat allow admin readonly deny owner = "readonly" →
      enforce_command_auth "lockme" (resolve_chat_role chat allow admin readonly deny owner)
        (decide (allow ≠ ∅)) owner (is_owner_chat chat owner) = true) := by
  have hro : resolve_chat_role chat allow admin readonly deny owner = "readonly" →
      enforce_command_auth "lockme" (resolve_chat_role chat allow admin readonly deny owner)
        (decide (allow ≠ ∅)) owner (is_owner_chat chat owner) = true := by
    intro hr
    have hio : is_owner_chat chat owner = false := by
      cases hb : is_owner_chat chat owner
      · rfl
      · exfalso
        have : resolve_chat_role chat allow admin readonly deny owner = "owner" := by
          simp [resolve_chat_role, hb]
        rw [hr] at this
        exact absurd this (by decide)
    rw [hr, hio]
    unfold enforce_command_auth
    split_ifs with b1 b2 b3 b4
    · rfl
    · rfl
    · simp
    · rfl
    · exfalso
      refine b4 ⟨rfl, by decide⟩
  refine ⟨?_, hro⟩
  intro hacc
  rcases resolve_chat_role_cases chat owner allow admin readonly deny with h | h | h | h
  · exact Or.inr (Or.inl h)
  · exact Or.inl h
  · rw [hro h] at hacc
    exact absurd hacc (by decide)
  · exact Or.inr (Or.inr h)

/-- C5 amended witness: a readonly chat is rejected for `/lockme` on
concrete sets. -/
theorem c5_lockme_auth_amended_witness :
    (enforce_command_auth "lockme" (resolve_chat_role "77777" ∅ ∅ {"77777"} false "")
        (decide ((∅ : Finset String) ≠ ∅)) "" (is_owner_chat "77777" "") = false →
      resolve_chat_role "77777" ∅ ∅ {"77777"} false "" = "admin" ∨
      resolve_chat_role "77777" ∅ ∅ {"77777"} false "" = "owner" ∨
      resolve_chat_role "77777" ∅ ∅ {"77777"} false "" = "unknown") ∧
    (resolve_chat_role "77777" ∅ ∅ {"77777"} false "" = "readonly" →
      enforce_command_auth "lockme" (resolve_chat_role "77777" ∅ ∅ {"77777"} false "")
        (decide ((∅ : Finset String) ≠ ∅)) "" (is_owner_chat "77777" "") = true) :=
  c5_lockme_auth_amended "77777" "" ∅ ∅ {"77777"} false (by simp)

/-! ## Lifecycle reconciler (`aoe-telegram-gateway.py`, `sync_task_lifecycle`) -/

/-- `normalize_task_status` (gateway lines 505-519). -/
def normalize_task_status (raw : String) : String :=
  let token := py_lower (py_strip raw)
  if token ∈ (["pending", "running", "completed", "failed"] : List String) then token
  else if token = "done" ∨ token = "complete" ∨ token = "success" then "completed"
  else if token = "fail" ∨ token = "error" then "failed"
  else if token = "active" ∨ token = "in_progress" ∨ token = "progress" then "running"
  else "pending"

def dedupe_roles_go (seen : List String) : List String → List String
  | [] => []
  | item :: rest =>
    let token := py_strip item
    if token = "" then dedupe_roles_go seen rest
    else
      let key := py_lower token
      if key ∈ seen then dedupe_roles_go seen rest
      else token :: dedupe_roles_go (key :: seen) rest

/-- `dedupe_roles` (gateway lines 1490-1500): strip, drop empties,
deduplicate case-insensitively keeping first occurrences. -/
def dedupe_roles (roles : List String) : List String :=
  dedupe_roles_go [] roles

/-- The orchestrator snapshot shape produced by `extract_request_snapshot`
and consumed by `sync_task_lifecycle` (gateway lines 2115-2152). -/
structure RequestSnapshot where
  request_id : String
  rows_roles : List String
  assignments : Int
  replies : Int
  complete : Bool
  done_roles : List String
  failed_roles : List String
  pending_roles : List String

/-- Staffing stage rule (gateway line 2157). -/
def staffing_status_of (assignments : Int) (roles : List String) : String :=
  if assignments > 0 then "done" else if roles ≠ [] then "running" else "pending"

/-- Execution stage rule (gateway lines 2160-2168). -/
def execution_status_of (failed_roles : List String) (complete : Bool)
    (assignments : Int) (pending_roles : List String) : String :=
  if failed_roles ≠ [] then "failed"
  else if complete = true ∧ 0 < assignments ∧ pending_roles = [] then "done"
  else if 0 < assignments then "running"
  else "pending"

/-- Verification stage rule with its note (gateway lines 2170-2197). -/
def verification_status_of (require_verifier : Bool)
    (verifiers done_roles failed_roles : List String) (complete : Bool)
    (execution_status : String) : String × String :=
  if require_verifier then
    if verifiers = [] then ("failed", "no verifier role assigned")
    else if verifiers.any (fun v => v ∈ failed_roles) then ("failed", "verifier role failed")
    else if verifiers.all (fun v => v ∈ done_roles) then ("done", "")
    else if complete = true ∧ execution_status = "done" then
      ("failed", "verifier gate not satisfied")
    else if execution_status = "running" ∨ execution_status = "done" then ("running", "")
    else if execution_status = "failed" then ("failed", "")
    else ("pending", "")
  else
    if execution_status = "done" then ("done", "")
    else if execution_status = "failed" then ("failed", "")
    else if execution_status = "running" then ("running", "")
    else ("pending", "")

/-- Integration stage rule (gateway lines 2201-2208). -/
def integration_status_of (execution verification : String)
    (replies : Int) (complete : Bool) : String :=
  if execution = "failed" ∨ verification = "failed" then "failed"
  else if verification = "done" ∧ (0 < replies ∨ complete = true) then "done"
  else if execution = "running" ∨ verification = "running" then "running"
  else "pending"

/-- Close stage rule (gateway lines 2211-2218). -/
def close_status_of (integration execution verification : String)
    (complete : Bool) : String :=
  if integration = "failed" then "failed"
  else if integration = "done" ∧ complete = true then "done"
  else if execution = "running" ∨ verification = "running" then "running"
  else "pending"

/-- Overall status rule (gateway lines 2221-2228). -/
def overall_status_of (close verification execution : String) : String :=
  if close = "failed" ∨ verification = "failed" ∨ execution = "failed" then "failed"
  else if close = "done" then "completed"
  else if close = "running" ∨ execution = "running" ∨ verification = "running" then "running"
  else "pending"

/-- The stage statuses and overall status written back into the task
record by `sync_task_lifecycle`. -/
structure LifecycleSync where
  roles : List String
  verifiers : List String
  staffing : String
  execution : String
  verification : String
  verification_note : String
  integration : String
  close : String
  status : String

/-- Role list adopted by `sync_task_lifecycle` (lines 2131-2133): the
caller's selection, or the roles inferred from the snapshot rows when the
selection is absent or empty, deduplicated. -/
def sync_roles (snap : RequestSnapshot) (selected_roles : Option (List String)) :
    List String :=
  dedupe_roles (if selected_roles.getD [] = [] then
    (snap.rows_roles.map py_strip).filter (fun r => r ≠ "") else selected_roles.getD [])

/-- Verifier list adopted by `sync_task_lifecycle` (lines 2135-2136). -/
def sync_verifiers (snap : RequestSnapshot)
    (selected_roles verifier_roles : Option (List String))
    (verifier_candidates : List String) : List String :=
  dedupe_roles (if verifier_roles.getD [] = [] then
    (sync_roles snap selected_roles).filter
      (fun r => py_lower r ∈ verifier_candidates.map (fun c => py_lower c))
    else verifier_roles.getD [])

def sync_execution (snap : RequestSnapshot) : String :=
  execution_status_of snap.failed_roles snap.complete snap.assignments snap.pending_roles

def sync_verification (snap : RequestSnapshot)
    (selected_roles verifier_roles : Option (List String))
    (require_verifier : Bool) (verifier_candidates : List String) : String × String :=
  verification_status_of require_verifier
    (sync_verifiers snap selected_roles verifier_roles verifier_candidates)
    snap.done_roles snap.failed_roles snap.complete (sync_execution snap)

def sync_integration (snap : RequestSnapshot)
    (selected_roles verifier_roles : Option (List String))
    (require_verifier : Bool) (verifier_candidates : List String) : String :=
  integration_status_of (sync_execution snap)
    (sync_verification snap selected_roles verifier_roles require_verifier verifier_candidates).1
    snap.replies snap.complete

def sync_close (snap : RequestSnapshot)
    (selected_roles verifier_roles : Option (List String))
    (require_verifier : Bool) (verifier_candidates : List String) : String :=
  close_status_of
    (sync_integration snap selected_roles verifier_roles require_verifier verifier_candidates)
    (sync_execution snap)
    (sync_verification snap selected_roles verifier_roles require_verifier verifier_candidates).1
    snap.complete

/-- The stage/status derivation of `sync_task_lifecycle` after the
non-empty request id gate (gateway lines 2130-2240). -/
def sync_core (snap : RequestSnapshot)
    (selected_roles verifier_roles : Option (List String))
    (require_verifier : Bool) (verifier_candidates : List String) : LifecycleSync :=
  { roles := sync_roles snap selected_roles,
    verifiers := sync_verifiers snap selected_roles verifier_roles verifier_candidates,
    staffing := staffing_status_of snap.assignments (sync_roles snap selected_roles),
    execution := sync_execution snap,
    verification :=
      (sync_verification snap selected_roles verifier_roles require_verifier verifier_candidates).1,
    verification_note :=
      (sync_verification snap selected_roles verifier_roles require_verifier verifier_candidates).2,
    integration :=
      sync_integration snap selected_roles verifier_roles require_verifier verifier_candidates,
    close := sync_close snap selected_roles verifier_roles require_verifier verifier_candidates,
    status := normalize_task_status (overall_status_of
      (sync_close snap selected_roles verifier_roles require_verifier verifier_candidates)
      (sync_verification snap selected_roles verifier_roles require_verifier verifier_candidates).1
      (sync_execution snap)) }

/-- `sync_task_lifecycle` (gateway lines 2115-2245): `none` when the
snapshot's request id is empty after stripping, else the reconciled
stage statuses. -/
def sync_task_lifecycle (snap : RequestSnapshot)
    (selected_roles verifier_roles : Option (List String))
    (require_verifier : Bool) (verifier_candidates : List String) :
    Option LifecycleSync :=
  if py_strip snap.request_id = "" then none
  else some (sync_core snap selected_roles verifier_roles require_verifier verifier_candidates)

lemma execution_status_props (fr pr : List String) (complete : Bool) (assignments : Int) :
    (fr ≠ [] → execution_status_of fr complete assignments pr = "failed") ∧
    (fr = [] → complete = true → 0 < assignments → pr = [] →
      execution_status_of fr complete assignments pr = "done") ∧
    (fr = [] → ¬ (complete = true ∧ 0 < assignments ∧ pr = []) → 0 < assignments →
      execution_status_of fr complete assignments pr = "running") ∧
    (fr = [] → assignments ≤ 0 →
      execution_status_of fr complete assignments pr = "pending") := by
  unfold execution_status_of
  by_cases h1 : fr ≠ []
  · rw [if_pos h1]
    exact ⟨fun _ => rfl, fun he => absurd he h1, fun he => absurd he h1,
      fun he => absurd he h1⟩
  · rw [if_neg h1]
    by_cases h2 : complete = true ∧ 0 < assignments ∧ pr = []
    · rw [if_pos h2]
      exact ⟨fun hf => absurd hf h1, fun _ _ _ _ => rfl,
        fun _ hn _ => absurd h2 hn, fun _ hle => absurd h2.2.1 (by omega)⟩
    · rw [if_neg h2]
      by_cases h3 : 0 < assignments
      · rw [if_pos h3]
        exact ⟨fun hf => absurd hf h1, fun _ hc ha hp => absurd ⟨hc, ha, hp⟩ h2,
          fun _ _ _ => rfl, fun _ hle => absurd h3 (by omega)⟩
      · rw [if_neg h3]
        exact ⟨fun hf => absurd hf h1, fun _ _ ha _ => absurd ha h3,
          fun _ _ ha => absurd ha h3, fun _ _ => rfl⟩

lemma overall_status_props (c v e : String) :
    ((c = "failed" ∨ v = "failed" ∨ e = "failed") →
      normalize_task_status (overall_status_of c v e) = "failed") ∧
    (¬ (c = "failed" ∨ v = "failed" ∨ e = "failed") → c = "done" →
      normalize_task_status (overall_status_of c v e) = "completed") ∧
    (¬ (c = "failed" ∨ v = "failed" ∨ e = "failed") → c ≠ "done" →
      (c = "running" ∨ e = "running" ∨ v = "running") →
      normalize_task_status (overall_status_of c v e) = "running") ∧
    (¬ (c = "failed" ∨ v = "failed" ∨ e = "failed") → c ≠ "done" →
      ¬ (c = "running" ∨ e = "running" ∨ v = "running") →
      normalize_task_status (overall_status_of c v e) = "pending") := by
  unfold overall_status_of
  by_cases h1 : c = "failed" ∨ v = "failed" ∨ e = "failed"
  · rw [if_pos h1]
    exact ⟨fun _ => rfl, fun hn => absurd h1 hn, fun hn => absurd h1 hn,
      fun hn => absurd h1 hn⟩
  · rw [if_neg h1]
    by_cases h2 : c = "done"
    · rw [if_pos h2]
      exact ⟨fun hx => absurd hx h1, fun _ _ => rfl, fun _ hn => absurd h2 hn,
        fun _ hn => absurd h2 hn⟩
    · rw [if_neg h2]
      by_cases h3 : c = "running" ∨ e = "running" ∨ v = "running"
      · rw [if_pos h3]
        exact ⟨fun hx => absurd hx h1, fun _ hd => absurd hd h2,
          fun _ _ _ => rfl, fun _ _ hn => absurd h3 hn⟩
      · rw [if_neg h3]
        exact ⟨fun hx => absurd hx h1, fun _ hd => absurd hd h2,
          fun _ _ hr => absurd hr h3, fun _ _ _ => rfl⟩

/-- C1: for every snapshot with a non-empty request id, `sync_task_lifecycle`
returns a record whose execution stage is failed when `failed_roles` is
non-empty, else done when `complete` holds with positive assignments and no
pending roles, else running when assignments are positive, else pending; and
whose overall status is failed when close, verification or execution failed,
else completed when close is done, else running when close, execution or
verification is running, else pending. -/
theorem c1_lifecycle_execution_and_overall (snap : RequestSnapshot)
    (sel ver : Option (List String)) (rv : Bool) (vc : List String)
    (h : py_strip snap.request_id ≠ "") :
    ∃ r, sync_task_lifecycle snap sel ver rv vc = some r ∧
      (snap.failed_roles ≠ [] → r.execution = "failed") ∧
      (snap.failed_roles = [] → snap.complete = true → 0 < snap.assignments →
        snap.pending_roles = [] → r.execution = "done") ∧
      (snap.failed_roles = [] →
        ¬ (snap.complete = true ∧ 0 < snap.assignments ∧ snap.pending_roles = []) →
        0 < snap.assignments → r.execution = "running") ∧
      (snap.failed_roles = [] → snap.assignments ≤ 0 → r.execution = "pending") ∧
      ((r.close = "failed" ∨ r.verification = "failed" ∨ r.execution = "failed") →
        r.status = "failed") ∧
      (¬ (r.close = "failed" ∨ r.verification = "failed" ∨ r.execution = "failed") →
        r.close = "done" → r.status = "completed") ∧
      (¬ (r.close = "failed" ∨ r.verification = "failed" ∨ r.execution = "failed") →
        r.close ≠ "done" →
        (r.close = "running" ∨ r.execution = "running" ∨ r.verification = "running") →
        r.status = "running") ∧
      (¬ (r.close = "failed" ∨ r.verification = "failed" ∨ r.execution = "failed") →
        r.close ≠ "done" →
        ¬ (r.close = "running" ∨ r.execution = "running" ∨ r.verification = "running") →
        r.status = "pending") := by
  refine ⟨sync_core snap sel ver rv vc, by simp [sync_task_lifecycle, h], ?_⟩
  have hex : (sync_core snap sel ver rv vc).execution =
      execution_status_of snap.failed_roles snap.complete snap.assignments
        snap.pending_roles := rfl
  have hst : (sync_core snap sel ver rv vc).status =
      normalize_task_status (overall_status_of (sync_core snap sel ver rv vc).close
        (sync_core snap sel ver rv vc).verification
        (sync_core snap sel ver rv vc).execution) := by
    simp only [sync_core]
  obtain ⟨e1, e2, e3, e4⟩ :=
    execution_status_props snap.failed_roles snap.pending_roles snap.complete snap.assignments
  obtain ⟨o1, o2, o3, o4⟩ := overall_status_props (sync_core snap sel ver rv vc).close
    (sync_core snap sel ver rv vc).verification (sync_core snap sel ver rv vc).execution
  rw [hex, hst]
  exact ⟨e1, e2, e3, e4, o1, o2, o3, o4⟩

/-- C1 witness: a concrete snapshot with one failed role yields a failed
execution stage and a failed overall status. -/
theorem c1_lifecycle_execution_and_overall_witness :
    ∃ r, sync_task_lifecycle
        (RequestSnapshot.mk "req-1" ["Dev"] 1 1 false [] ["Dev"] []) none none false []
        = some r ∧
      ((["Dev"] : List String) ≠ [] → r.execution = "failed") ∧
      ((["Dev"] : List String) = [] → false = true → 0 < (1 : Int) → ([] : List String) = [] →
        r.execution = "done") ∧
      ((["Dev"] : List String) = [] →
        ¬ (false = true ∧ 0 < (1 : Int) ∧ ([] : List String) = []) →
        0 < (1 : Int) → r.execution = "running") ∧
      ((["Dev"] : List String) = [] → (1 : Int) ≤ 0 → r.execution = "pending") ∧
      ((r.close = "failed" ∨ r.verification = "failed" ∨ r.execution = "failed") →
        r.status = "failed") ∧
      (¬ (r.close = "failed" ∨ r.verification = "failed" ∨ r.execution = "failed") →
        r.close = "done" → r.status = "completed") ∧
      (¬ (r.close = "failed" ∨ r.verification = "failed" ∨ r.execution = "failed") →
        r.close ≠ "done" →
        (r.close = "running" ∨ r.execution = "running" ∨ r.verification = "running") →
        r.status = "running") ∧
      (¬ (r.close = "failed" ∨ r.verification = "failed" ∨ r.execution = "failed") →
        r.close ≠ "done" →
        ¬ (r.close = "running" ∨ r.execution = "running" ∨ r.verification = "running") →
        r.status = "pending") :=
  c1_lifecycle_execution_and_overall
    (RequestSnapshot.mk "req-1" ["Dev"] 1 1 false [] ["Dev"] []) none none false []
    (by decide)

/-! ## Confirmation protocol (`aoe_tg_run_handlers.py`, gateway session store) -/

/-- Raw `confirm_action` dictionary stored in a session row; absent keys
are modelled as empty strings. -/
structure RawConfirm where
  mode : String
  prompt : String
  requested_at : String
  risk : String
  orch : String
deriving DecidableEq

/-- Normalized confirm action returned by `get_confirm_action`. -/
structure ConfirmAction where
  mode : String
  prompt : String
  requested_at : String
  risk : String
  orch : String
deriving DecidableEq

/-- `get_confirm_action` (gateway lines 1213-1231): `none` for a missing
slot, an invalid mode or an empty prompt; an empty `requested_at` is
replaced by the current time string. -/
def get_confirm_action : Option RawConfirm → String → Option ConfirmAction
  | none, _ => none
  | some r, now_iso =>
    if (py_lower (py_strip r.mode) = "dispatch" ∨ py_lower (py_strip r.mode) = "direct") ∧
        py_strip r.prompt ≠ "" then
      some { mode := py_lower (py_strip r.mode), prompt := py_strip r.prompt,
             requested_at :=
               if py_strip r.requested_at = "" then now_iso else py_strip r.requested_at,
             risk := py_strip r.risk, orch := py_strip r.orch }
    else none

/-- Outcome of `resolve_confirm_run_transition`: not a `/ok` command, the
terminal no-pending-confirm reply, the terminal expiry reply, or the
re-synthesized run continuation. -/
inductive ConfirmOutcome where
  | not_confirm : ConfirmOutcome
  | no_pending (reply : String) : ConfirmOutcome
  | expired (reply : String) : ConfirmOutcome
  | redeem (run_prompt run_force_mode : String) (orch_target : Option String)
      (run_auto_source : String) : ConfirmOutcome
deriving DecidableEq

def confirm_empty_reply : String :=
  "확인 대기 중인 실행이 없습니다.\n고위험 평문 자동실행이 감지되면 /ok 로 승인할 수 있습니다."

def confirm_expired_reply : String :=
  "확인 요청이 만료되었습니다.\n다시 평문으로 요청하거나 /dispatch 로 재실행하세요."

/-- `resolve_confirm_run_transition` (aoe_tg_run_handlers.py lines 849-907).
Timestamps are epoch seconds (`Int`); `parse_iso_ts` is the strict
`%Y-%m-%dT%H:%M:%S%z` parser, passed as a function returning `none` on a
format mismatch.  The second component is the session's confirm slot after
the call (cleared on expiry and on redemption). -/
def resolve_confirm_run_transition (cmd : String) (confirm_slot : Option RawConfirm)
    (confirm_ttl_sec : Int) (parse_iso_ts : String → Option Int) (now : Int)
    (now_iso : String) (orch_target : Option String) :
    ConfirmOutcome × Option RawConfirm :=
  if cmd ≠ "confirm-run" then (.not_confirm, confirm_slot)
  else
    match get_confirm_action confirm_slot now_iso with
    | none => (.no_pending confirm_empty_reply, confirm_slot)
    | some confirm =>
      let requested_at := py_strip confirm.requested_at
      let ttl_sec := max 30 confirm_ttl_sec
      let expired : Bool :=
        match parse_iso_ts requested_at with
        | some created_ts => decide (now - created_ts > ttl_sec)
        | none => false
      if expired then (.expired confirm_expired_reply, none)
      else
        (.redeem (py_strip confirm.prompt)
          (if py_lower (py_strip confirm.mode) = "" then "dispatch"
           else py_lower (py_strip confirm.mode))
          (if py_strip confirm.orch ≠ "" then some (py_strip confirm.orch) else orch_target)
          "confirmed",
         none)

/-! ## Rate-limit and risk pre-check (`aoe_tg_run_handlers.py`) -/

/-- Task fields consulted by `summarize_chat_usage` (gateway lines 442-470):
the owning chat, the normalized status and the local date key of
`created_at`. -/
structure TaskUsageRow where
  initiator_chat_id : String
  status : String
  created_day : String

def summarize_chat_usage_go (cid today : String) :
    List TaskUsageRow → Int × Int
  | [] => (0, 0)
  | t :: rest =>
    let acc := summarize_chat_usage_go cid today rest
    if py_strip t.initiator_chat_id ≠ cid then acc
    else
      ((if normalize_task_status t.status = "pending" ∨
          normalize_task_status t.status = "running" then acc.1 + 1 else acc.1),
       (if t.created_day = today then acc.2 + 1 else acc.2))

/-- `summarize_chat_usage` (gateway lines 442-470): the pending/running
count and the created-today count of the chat's tasks. -/
def summarize_chat_usage (tasks : List TaskUsageRow) (chat_id : String)
    (today : String) : Int × Int :=
  let cid := py_strip chat_id
  if cid = "" then (0, 0) else summarize_chat_usage_go cid today tasks

/-- Outcome of `_handle_run_rate_limit_and_confirm` (aoe_tg_run_handlers.py
lines 275-368): not a run command (pre-check skipped), one of the two
`E_GATE` rate rejections, the confirm-required interception, or fall
through to planning and dispatch. -/
inductive RateOutcome where
  | not_run : RateOutcome
  | rejected_running : RateOutcome
  | rejected_daily : RateOutcome
  | confirm_required : RateOutcome
  | proceed : RateOutcome
deriving DecidableEq

/-- `_handle_run_rate_limit_and_confirm` (aoe_tg_run_handlers.py lines
275-368). -/
def handle_run_rate_limit_and_confirm (cmd : String)
    (chat_max_running chat_daily_cap : Int) (running_count submitted_today : Int)
    (run_auto_source risk : String) : RateOutcome :=
  if cmd ≠ "run" ∧ cmd ≠ "orch-run" then .not_run
  else
    let max_running := max 0 chat_max_running
    let daily_cap := max 0 chat_daily_cap
    if 0 < max_running ∧ running_count ≥ max_running then .rejected_running
    else if 0 < daily_cap ∧ submitted_today ≥ daily_cap then .rejected_daily
    else if run_auto_source ≠ "default" then .proceed
    else if risk = "" then .proceed
    else .confirm_required

/-! ## Retry/replan transition (`aoe_tg_retry_handlers.py`, `aoe_tg_message_flow.py`) -/

/-- The transition dictionary returned by `resolve_retry_replan_transition`
on success (aoe_tg_retry_handlers.py lines 85-97). -/
structure RetryTransitionResult where
  terminal : Bool
  cmd : String
  rest : String
  orch_target : String
  run_prompt : String
  run_roles_override : Option String
  run_force_mode : String
  run_no_wait_override : Bool
  run_control_mode : String
  run_source_request_id : String
deriving DecidableEq

/-- The successful return of `resolve_retry_replan_transition` for a
resolved source task with a non-empty prompt (lines 78-97): the command is
re-synthesized as `run` carrying the source's prompt, roles and mode. -/
def resolve_retry_replan_success (cmd key req_id src_prompt : String)
    (source_roles : List String) (source_mode : String) : RetryTransitionResult :=
  { terminal := false, cmd := "run", rest := "", orch_target := key,
    run_prompt := src_prompt,
    run_roles_override :=
      if source_roles ≠ [] then some (String.intercalate "," source_roles) else none,
    run_force_mode :=
      if py_lower (py_strip source_mode) = "direct" then "direct" else "dispatch",
    run_no_wait_override := false,
    run_control_mode := if cmd = "orch-retry" then "retry" else "replan",
    run_source_request_id := req_id }

/-- The command adopted by `apply_retry_transition_to_resolved`
(aoe_tg_message_flow.py line 51). -/
def apply_retry_transition_cmd (t : RetryTransitionResult) : String :=
  if py_strip t.cmd = "" then "run" else py_strip t.cmd

lemma summarize_chat_usage_go_eq (cid today : String) (tasks : List TaskUsageRow) :
    summarize_chat_usage_go cid today tasks =
      ((tasks.countP (fun t => decide (py_strip t.initiator_chat_id = cid ∧
          (normalize_task_status t.status = "pending" ∨
           normalize_task_status t.status = "running"))) : Int),
       (tasks.countP (fun t => decide (py_strip t.initiator_chat_id = cid ∧
          t.created_day = today)) : Int)) := by
  induction tasks with
  | nil => simp [summarize_chat_usage_go]
  | cons t rest ih =>
    simp only [summarize_chat_usage_go, ih, List.countP_cons]
    by_cases h1 : py_strip t.initiator_chat_id = cid
    · by_cases h2 : normalize_task_status t.status = "pending" ∨
          normalize_task_status t.status = "running" <;>
        by_cases h3 : t.created_day = today <;>
          simp [h1, h2, h3]
    · simp [h1]

/-- C3 counterexample: the transition built by `resolve_retry_replan_transition`
re-synthesizes the command as `run`, and the run handler's rate-limit
pre-check therefore fires on it: with `chat_max_running = 1` and one
pending/running task already owned by the chat, the retry-transition run is
rejected with the `E_GATE` running-cap reply — refuting the claim that the
pre-check is not applied to runs arising from a retry or replan transition. -/
theorem c3_retry_rate_limit_counterexample :
    apply_retry_transition_cmd
      (resolve_retry_replan_success "orch-retry" "default" "req-1" "fix the bug" [] "dispatch")
      = "run" ∧
    handle_run_rate_limit_and_confirm
      (apply_retry_transition_cmd
        (resolve_retry_replan_success "orch-retry" "default" "req-1" "fix the bug" [] "dispatch"))
      1 0 1 0 "" "" = .rejected_running :=
  ⟨by decide, by decide⟩

/-- C3 amended: the rate-limit pre-check is applied exactly to commands
whose resolved command is `run`/`orch-run`; the running-cap rejection fires
iff the cap is positive and the chat owns at least that many tasks with
normalized status pending or running, the daily rejection fires iff the
running check passed, the daily cap is positive and at least that many
tasks were created today (a non-positive cap disables the check); and every
successful retry/replan transition re-synthesizes its command as `run`, so
such runs pass through the same pre-check. -/
theorem c3_rate_precheck_amended (cmd : String) (chat_max_running chat_daily_cap : Int)
    (tasks : List TaskUsageRow) (chat_id today run_auto_source risk : String)
    (hcid : py_strip chat_id ≠ "") :
    (cmd ≠ "run" ∧ cmd ≠ "orch-run" →
      handle_run_rate_limit_and_confirm cmd chat_max_running chat_daily_cap
        (summarize_chat_usage tasks chat_id today).1
        (summarize_chat_usage tasks chat_id today).2 run_auto_source risk = .not_run) ∧
    (cmd = "run" ∨ cmd = "orch-run" →
      (handle_run_rate_limit_and_confirm cmd chat_max_running chat_daily_cap
          (summarize_chat_usage tasks chat_id today).1
          (summarize_chat_usage tasks chat_id today).2 run_auto_source risk
        = .rejected_running ↔
       0 < chat_max_running ∧
        chat_max_running ≤
          (tasks.countP (fun t => decide (py_strip t.initiator_chat_id = py_strip chat_id ∧
            (normalize_task_status t.status = "pending" ∨
             normalize_task_status t.status = "running"))) : Int))) ∧
    (cmd = "run" ∨ cmd = "orch-run" →
      (handle_run_rate_limit_and_confirm cmd chat_max_running chat_daily_cap
          (summarize_chat_usage tasks chat_id today).1
          (summarize_chat_usage tasks chat_id today).2 run_auto_source risk
        = .rejected_daily ↔
       ¬ (0 < chat_max_running ∧
          chat_max_running ≤
            (tasks.countP (fun t => decide (py_strip t.initiator_chat_id = py_strip chat_id ∧
              (normalize_task_status t.status = "pending" ∨
               normalize_task_status t.status = "running"))) : Int)) ∧
       0 < chat_daily_cap ∧
        chat_daily_cap ≤
          (tasks.countP (fun t => decide (py_strip t.initiator_chat_id = py_strip chat_id ∧
            t.created_day = today)) : Int))) ∧
    (∀ rcmd key req prompt roles mode,
      apply_retry_transition_cmd
        (resolve_retry_replan_success rcmd key req prompt roles mode) = "run") := by
  have husage : summarize_chat_usage tasks chat_id today =
      ((tasks.countP (fun t => decide (py_strip t.initiator_chat_id = py_strip chat_id ∧
          (normalize_task_status t.status = "pending" ∨
           normalize_task_status t.status = "running"))) : Int),
       (tasks.countP (fun t => decide (py_strip t.initiator_chat_id = py_strip chat_id ∧
          t.created_day = today)) : Int)) := by
    unfold summarize_chat_usage
    rw [if_neg hcid]
    exact summarize_chat_usage_go_eq (py_strip chat_id) today tasks
  rw [husage]
  refine ⟨?_, ?_, ?_, ?_⟩
  · intro hno
    unfold handle_run_rate_limit_and_confirm
    rw [if_pos hno]
  · intro hyes
    have hcmd : ¬ (cmd ≠ "run" ∧ cmd ≠ "orch-run") := by tauto
    unfold handle_run_rate_limit_and_confirm
    rw [if_neg hcmd]
    constructor
    · intro h
      by_cases hr : 0 < max 0 chat_max_running ∧
          (tasks.countP (fun t => decide (py_strip t.initiator_chat_id = py_strip chat_id ∧
            (normalize_task_status t.status = "pending" ∨
             normalize_task_status t.status = "running"))) : Int) ≥ max 0 chat_max_running
      · constructor
        · omega
        · omega
      · rw [if_neg hr] at h
        split_ifs at h
    · intro h
      have hr : 0 < max 0 chat_max_running ∧
          (tasks.countP (fun t => decide (py_strip t.initiator_chat_id = py_strip chat_id ∧
            (normalize_task_status t.status = "pending" ∨
             normalize_task_status t.status = "running"))) : Int) ≥ max 0 chat_max_running := by
        omega
      rw [if_pos hr]
  · intro hyes
    have hcmd : ¬ (cmd ≠ "run" ∧ cmd ≠ "orch-run") := by tauto
    unfold handle_run_rate_limit_and_confirm
    rw [if_neg hcmd]
    by_cases hr : 0 < max 0 chat_max_running ∧
        (tasks.countP (fun t => decide (py_strip t.initiator_chat_id = py_strip chat_id ∧
          (normalize_task_status t.status = "pending" ∨
           normalize_task_status t.status = "running"))) : Int) ≥ max 0 chat_max_running
    · rw [if_pos hr]
      constructor
      · intro h; cases h
      · intro h
        exact absurd (by omega : 0 < chat_max_running ∧ chat_max_running ≤
          (tasks.countP (fun t => decide (py_strip t.initiator_chat_id = py_strip chat_id ∧
            (normalize_task_status t.status = "pending" ∨
             normalize_task_status t.status = "running"))) : Int)) h.1
    · rw [if_neg hr]
      by_cases hd : 0 < max 0 chat_daily_cap ∧
          (tasks.countP (fun t => decide (py_strip t.initiator_chat_id = py_strip chat_id ∧
            t.created_day = today)) : Int) ≥ max 0 chat_daily_cap
      · rw [if_pos hd]
        constructor
        · intro _
          refine ⟨fun hc => ?_, by omega, by omega⟩
          exact hr ⟨by omega, by omega⟩
        · intro _; rfl
      · rw [if_neg hd]
        constructor
        · intro h
          split_ifs at h
        · intro h
          exact absurd ⟨by omega, by omega⟩ hd
  · intro rcmd key req prompt roles mode
    have hc : (resolve_retry_replan_success rcmd key req prompt roles mode).cmd = "run" := rfl
    unfold apply_retry_transition_cmd
    rw [hc]
    decide

lemma resolve_confirm_run_reduce (slot : Option RawConfirm) (c : ConfirmAction)
    (ttl : Int) (parse : String → Option Int) (now : Int) (now_iso : String)
    (orch : Option String) (hget : get_confirm_action slot now_iso = some c) :
    resolve_confirm_run_transition "confirm-run" slot ttl parse now now_iso orch =
      (if (match parse (py_strip c.requested_at) with
          | some created_ts => decide (now - created_ts > max 30 ttl)
          | none => false) = true
       then (.expired confirm_expired_reply, none)
       else (.redeem (py_strip c.prompt)
          (if py_lower (py_strip c.mode) = "" then "dispatch" else py_lower (py_strip c.mode))
          (if py_strip c.orch ≠ "" then some (py_strip c.orch) else orch) "confirmed",
          none)) := by
  unfold resolve_confirm_run_transition
  rw [if_neg (by simp), hget]

/-- C2 counterexample: with `--confirm-ttl-sec 100000` (reachable because
only the environment-variable default is clamped to 86400, not the CLI
value) and a token 90000 seconds old, `/ok` still redeems the token even
though 90000 exceeds the claim's clamped TTL `min 86400 (max 30 100000)`,
so the claim's upper clamp at 86400 seconds is not enforced by
`resolve_confirm_run_transition`. -/
theorem c2_ttl_clamp_counterexample :
    resolve_confirm_run_transition "confirm-run"
        (some (RawConfirm.mk "dispatch" "rm -rf /tmp/demo" "TS0" "destructive_delete" ""))
        100000 (fun s => if s = "TS0" then some 0 else none) 90000 "NOW" none
      = (ConfirmOutcome.redeem "rm -rf /tmp/demo" "dispatch" none "confirmed", none) ∧
    (90000 : Int) - 0 > min 86400 (max 30 (100000 : Int)) := by
  exact ⟨by decide, by decide⟩

/-- C2 amended: a `/ok` on a stored confirm action whose `requested_at`
parses succeeds exactly when its age is at most `max 30 confirm_ttl_sec`
(the 86400 upper clamp applies only to the environment default of
`--confirm-ttl-sec`, not to the redemption check); on an expired token it
replies with the expiry message and clears the slot; on a live token it
clears the slot and re-synthesizes a run with `run_auto_source` set to
`confirmed`, and the run pre-check never demands a new confirmation for an
auto source other than `default`. -/
theorem c2_confirm_ttl_amended (slot : Option RawConfirm) (c : ConfirmAction)
    (ttl : Int) (parse : String → Option Int) (now : Int) (now_iso : String)
    (orch : Option String) (hget : get_confirm_action slot now_iso = some c) :
    (∀ ts, parse (py_strip c.requested_at) = some ts → now - ts > max 30 ttl →
      resolve_confirm_run_transition "confirm-run" slot ttl parse now now_iso orch
        = (.expired confirm_expired_reply, none)) ∧
    (∀ ts, parse (py_strip c.requested_at) = some ts → now - ts ≤ max 30 ttl →
      ∃ p m o, resolve_confirm_run_transition "confirm-run" slot ttl parse now now_iso orch
        = (.redeem p m o "confirmed", none)) ∧
    (∀ cmd2 maxr capd rc st risk,
      handle_run_rate_limit_and_confirm cmd2 maxr capd rc st "confirmed" risk ≠
        .confirm_required) := by
  refine ⟨?_, ?_, ?_⟩
  · intro ts hts hgt
    rw [resolve_confirm_run_reduce slot c ttl parse now now_iso orch hget, hts]
    simp [hgt]
  · intro ts hts hle
    refine ⟨py_strip c.prompt,
      (if py_lower (py_strip c.mode) = "" then "dispatch" else py_lower (py_strip c.mode)),
      (if py_strip c.orch ≠ "" then some (py_strip c.orch) else orch), ?_⟩
    rw [resolve_confirm_run_reduce slot c ttl parse now now_iso orch hget, hts]
    have hng : ¬ (now - ts > max 30 ttl) := by omega
    simp [hng]
  · intro cmd2 maxr capd rc st risk
    simp only [handle_run_rate_limit_and_confirm]
    split_ifs with h1 h2 h3 h4 h5 <;> try simp
    exact absurd (not_not.mp h4) (by decide)

/-- C2 amended witness: a 400-second-old token with `confirm_ttl_sec = 300`
is expired (and the other two conjuncts hold) on concrete inputs. -/
theorem c2_confirm_ttl_amended_witness :
    (∀ ts, (fun s => if s = "T1" then some (0 : Int) else none)
        (py_strip (ConfirmAction.mk "dispatch" "deploy" "T1" "" "").requested_at) = some ts →
      (400 : Int) - ts > max 30 300 →
      resolve_confirm_run_transition "confirm-run"
          (some (RawConfirm.mk "dispatch" "deploy" "T1" "" "")) 300
          (fun s => if s = "T1" then some 0 else none) 400 "N" none
        = (.expired confirm_expired_reply, none)) ∧
    (∀ ts, (fun s => if s = "T1" then some (0 : Int) else none)
        (py_strip (ConfirmAction.mk "dispatch" "deploy" "T1" "" "").requested_at) = some ts →
      (400 : Int) - ts ≤ max 30 300 →
      ∃ p m o, resolve_confirm_run_transition "confirm-run"
          (some (RawConfirm.mk "dispatch" "deploy" "T1" "" "")) 300
          (fun s => if s = "T1" then some 0 else none) 400 "N" none
        = (.redeem p m o "confirmed", none)) ∧
    (∀ cmd2 maxr capd rc st risk,
      handle_run_rate_limit_and_confirm cmd2 maxr capd rc st "confirmed" risk ≠
        .confirm_required) :=
  c2_confirm_ttl_amended (some (RawConfirm.mk "dispatch" "deploy" "T1" "" ""))
    (ConfirmAction.mk "dispatch" "deploy" "T1" "" "") 300
    (fun s => if s = "T1" then some 0 else none) 400 "N" none (by decide)

/-- C10: a stored confirm action whose `requested_at` does not parse under
`%Y-%m-%dT%H:%M:%S%z` is treated as not expired and `/ok` redeems it
regardless of age; and `get_confirm_action` substitutes the current time
for an empty `requested_at`, so such a token is also always redeemable. -/
theorem c10_unparseable_requested_at_never_expires (slot : Option RawConfirm)
    (c : ConfirmAction) (ttl : Int) (parse : String → Option Int) (now : Int)
    (now_iso : String) (orch : Option String)
    (hget : get_confirm_action slot now_iso = some c) :
    (parse (py_strip c.requested_at) = none →
      ∃ p m o, resolve_confirm_run_transition "confirm-run" slot ttl parse now now_iso orch
        = (.redeem p m o "confirmed", none)) ∧
    (∀ r, slot = some r → py_strip r.requested_at = "" → c.requested_at = now_iso) ∧
    (c.requested_at = now_iso → parse (py_strip now_iso) = some now →
      ∃ p m o, resolve_confirm_run_transition "confirm-run" slot ttl parse now now_iso orch
        = (.redeem p m o "confirmed", none)) := by
  refine ⟨?_, ?_, ?_⟩
  · intro hnone
    refine ⟨py_strip c.prompt,
      (if py_lower (py_strip c.mode) = "" then "dispatch" else py_lower (py_strip c.mode)),
      (if py_strip c.orch ≠ "" then some (py_strip c.orch) else orch), ?_⟩
    rw [resolve_confirm_run_reduce slot c ttl parse now now_iso orch hget, hnone]
    simp
  · intro r hr hempty
    subst hr
    simp only [get_confirm_action] at hget
    split_ifs at hget with hv
    injection hget with h2
    rw [← h2]
  · intro hreq hp
    refine ⟨py_strip c.prompt,
      (if py_lower (py_strip c.mode) = "" then "dispatch" else py_lower (py_strip c.mode)),
      (if py_strip c.orch ≠ "" then some (py_strip c.orch) else orch), ?_⟩
    rw [resolve_confirm_run_reduce slot c ttl parse now now_iso orch hget, hreq, hp]
    have hng : ¬ (now - now > max 30 ttl) := by omega
    simp [hng]

/-- C10 witness: a confirm action stored with a whitespace `requested_at`
reads back with the current time and is redeemed on concrete inputs. -/
theorem c10_unparseable_requested_at_never_expires_witness :
    ((fun s => if s = "N" then some (5 : Int) else none)
        (py_strip (ConfirmAction.mk "dispatch" "deploy" "N" "" "").requested_at) = none →
      ∃ p m o, resolve_confirm_run_transition "confirm-run"
          (some (RawConfirm.mk "dispatch" "deploy" " " "" "")) 300
          (fun s => if s = "N" then some 5 else none) 5 "N" none
        = (.redeem p m o "confirmed", none)) ∧
    (∀ r, (some (RawConfirm.mk "dispatch" "deploy" " " "" "")) = some r →
      py_strip r.requested_at = "" →
      (ConfirmAction.mk "dispatch" "deploy" "N" "" "").requested_at = "N") ∧
    ((ConfirmAction.mk "dispatch" "deploy" "N" "" "").requested_at = "N" →
      (fun s => if s = "N" then some (5 : Int) else none) (py_strip "N") = some 5 →
      ∃ p m o, resolve_confirm_run_transition "confirm-run"
          (some (RawConfirm.mk "dispatch" "deploy" " " "" "")) 300
          (fun s => if s = "N" then some 5 else none) 5 "N" none
        = (.redeem p m o "confirmed", none)) :=
  c10_unparseable_requested_at_never_expires
    (some (RawConfirm.mk "dispatch" "deploy" " " "" ""))
    (ConfirmAction.mk "dispatch" "deploy" "N" "" "") 300
    (fun s => if s = "N" then some 5 else none) 5 "N" none (by decide)

/-- C3 amended witness: with `chat_max_running = 1` and one running task
owned by chat `123456`, a plain `run` is rejected by the running cap on
concrete inputs. -/
theorem c3_rate_precheck_amended_witness :
    (("run" : String) ≠ "run" ∧ ("run" : String) ≠ "orch-run" →
      handle_run_rate_limit_and_confirm "run" 1 0
        (summarize_chat_usage [TaskUsageRow.mk "123456" "running" "2026-02-24"]
          "123456" "2026-02-24").1
        (summarize_chat_usage [TaskUsageRow.mk "123456" "running" "2026-02-24"]
          "123456" "2026-02-24").2 "" "" = .not_run) ∧
    (("run" : String) = "run" ∨ ("run" : String) = "orch-run" →
      (handle_run_rate_limit_and_confirm "run" 1 0
          (summarize_chat_usage [TaskUsageRow.mk "123456" "running" "2026-02-24"]
            "123456" "2026-02-24").1
          (summarize_chat_usage [TaskUsageRow.mk "123456" "running" "2026-02-24"]
            "123456" "2026-02-24").2 "" ""
        = .rejected_running ↔
       (0 : Int) < 1 ∧
        (1 : Int) ≤
          ([TaskUsageRow.mk "123456" "running" "2026-02-24"].countP
            (fun t => decide (py_strip t.initiator_chat_id = py_strip "123456" ∧
              (normalize_task_status t.status = "pending" ∨
               normalize_task_status t.status = "running"))) : Int))) ∧
    (("run" : String) = "run" ∨ ("run" : String) = "orch-run" →
      (handle_run_rate_limit_and_confirm "run" 1 0
          (summarize_chat_usage [TaskUsageRow.mk "123456" "running" "2026-02-24"]
            "123456" "2026-02-24").1
          (summarize_chat_usage [TaskUsageRow.mk "123456" "running" "2026-02-24"]
            "123456" "2026-02-24").2 "" ""
        = .rejected_daily ↔
       ¬ ((0 : Int) < 1 ∧
          (1 : Int) ≤
            ([TaskUsageRow.mk "123456" "running" "2026-02-24"].countP
              (fun t => decide (py_strip t.initiator_chat_id = py_strip "123456" ∧
                (normalize_task_status t.status = "pending" ∨
                 normalize_task_status t.status = "running"))) : Int)) ∧
       (0 : Int) < 0 ∧
        (0 : Int) ≤
          (([TaskUsageRow.mk "123456" "running" "2026-02-24"].countP
            (fun t => decide (py_strip t.initiator_chat_id = py_strip "123456" ∧
              t.created_day = "2026-02-24"))) : Int))) ∧
    (∀ rcmd key req prompt roles mode,
      apply_retry_transition_cmd
        (resolve_retry_replan_success rcmd key req prompt roles mode) = "run") :=
  c3_rate_precheck_amended "run" 1 0 [TaskUsageRow.mk "123456" "running" "2026-02-24"]
    "123456" "2026-02-24" "" "" (by decide)

/-! ## Session rows and `/mode off` (`aoe_tg_management_handlers.py`, gateway session store) -/

/-- A per-chat session row; `Option` fields model key presence in the
underlying dictionary. -/
structure SessionRow where
  pending_mode : Option String
  default_mode : Option String
  confirm_action : Option RawConfirm
  recent_task_refs : Option (List (String × List String))
  selected_task_refs : Option (List (String × String))
  updated_at : String
deriving DecidableEq

/-- The session-key presence test shared by the three clears (gateway
lines 1173, 1210, 1276): any of the five session keys remains. -/
def session_row_has_keys (row : SessionRow) : Bool :=
  row.pending_mode.isSome || row.default_mode.isSome || row.confirm_action.isSome ||
    row.recent_task_refs.isSome || row.selected_task_refs.isSome

/-- `clear_default_mode` (gateway lines 1196-1210): pops the key, touches
`updated_at` only when it existed, and drops the row when no session keys
remain.  Returns whether the key existed and the row afterwards. -/
def clear_default_mode (chat_id t : String) (row0 : Option SessionRow) :
    Bool × Option SessionRow :=
  if py_strip chat_id = "" then (false, row0)
  else
    match row0 with
    | none => (false, none)
    | some row =>
      let existed := row.default_mode.isSome
      let row2 : SessionRow :=
        { row with default_mode := none,
                   updated_at := if existed then t else row.updated_at }
      if session_row_has_keys row2 then (existed, some row2) else (existed, none)

/-- `clear_pending_mode` (gateway lines 1162-1175). -/
def clear_pending_mode (chat_id t : String) (row0 : Option SessionRow) :
    Bool × Option SessionRow :=
  if py_strip chat_id = "" then (false, row0)
  else
    match row0 with
    | none => (false, none)
    | some row =>
      let existed := row.pending_mode.isSome
      let row2 : SessionRow :=
        { row with pending_mode := none,
                   updated_at := if existed then t else row.updated_at }
      if session_row_has_keys row2 then (existed, some row2) else (existed, none)

/-- `clear_confirm_action` (gateway lines 1262-1276). -/
def clear_confirm_action (chat_id t : String) (row0 : Option SessionRow) :
    Bool × Option SessionRow :=
  if py_strip chat_id = "" then (false, row0)
  else
    match row0 with
    | none => (false, none)
    | some row =>
      let existed := row.confirm_action.isSome
      let row2 : SessionRow :=
        { row with confirm_action := none,
                   updated_at := if existed then t else row.updated_at }
      if session_row_has_keys row2 then (existed, some row2) else (existed, none)

/-- The `/mode off` session mutation (aoe_tg_management_handlers.py lines
77-92): clear the default mode, the pending mode and any confirm action,
each clear touching `updated_at` and dropping the emptied row. -/
def mode_off (chat_id t1 t2 t3 : String) (row0 : Option SessionRow) :
    Option SessionRow :=
  (clear_confirm_action chat_id t3
    (clear_pending_mode chat_id t2
      (clear_default_mode chat_id t1 row0).2).2).2

/-- C8: `/mode off` clears the chat's `default_mode`, `pending_mode` and
`confirm_action`, drops the session row when no session keys remain, and a
second `/mode off` with no interleaving state change leaves the session
state exactly unchanged (it does not even touch `updated_at`, since no key
exists any more). -/
theorem c8_mode_off_idempotent (chat_id t1 t2 t3 u1 u2 u3 : String)
    (row0 : Option SessionRow) (hcid : py_strip chat_id ≠ "") :
    (∀ row, mode_off chat_id t1 t2 t3 row0 = some row →
      row.default_mode = none ∧ row.pending_mode = none ∧ row.confirm_action = none ∧
      (row.recent_task_refs.isSome ∨ row.selected_task_refs.isSome)) ∧
    mode_off chat_id u1 u2 u3 (mode_off chat_id t1 t2 t3 row0)
      = mode_off chat_id t1 t2 t3 row0 := by
  rcases row0 with _ | ⟨p, d, ca, rt, st, ua⟩
  · simp [mode_off, clear_default_mode, clear_pending_mode, clear_confirm_action, hcid]
  · rcases p with _ | pv <;> rcases d with _ | dv <;> rcases ca with _ | cav <;>
      rcases rt with _ | rtv <;> rcases st with _ | stv <;>
      simp [mode_off, clear_default_mode, clear_pending_mode, clear_confirm_action,
        session_row_has_keys, hcid]

/-- C8 witness: a row holding all three clearable keys and a recent-refs
map collapses to just the recent-refs key, and a second `/mode off` is a
no-op, on concrete inputs. -/
theorem c8_mode_off_idempotent_witness :
    (∀ row, mode_off "123456" "t1" "t2" "t3"
        (some (SessionRow.mk (some "dispatch") (some "dispatch")
          (some (RawConfirm.mk "dispatch" "x" "" "" "")) (some [("default", ["r1"])])
          none "t0")) = some row →
      row.default_mode = none ∧ row.pending_mode = none ∧ row.confirm_action = none ∧
      (row.recent_task_refs.isSome ∨ row.selected_task_refs.isSome)) ∧
    mode_off "123456" "u1" "u2" "u3"
        (mode_off "123456" "t1" "t2" "t3"
          (some (SessionRow.mk (some "dispatch") (some "dispatch")
            (some (RawConfirm.mk "dispatch" "x" "" "" "")) (some [("default", ["r1"])])
            none "t0")))
      = mode_off "123456" "t1" "t2" "t3"
          (some (SessionRow.mk (some "dispatch") (some "dispatch")
            (some (RawConfirm.mk "dispatch" "x" "" "" "")) (some [("default", ["r1"])])
            none "t0")) :=
  c8_mode_off_idempotent "123456" "t1" "t2" "t3" "u1" "u2" "u3"
    (some (SessionRow.mk (some "dispatch") (some "dispatch")
      (some (RawConfirm.mk "dispatch" "x" "" "" "")) (some [("default", ["r1"])])
      none "t0")) (by decide)

/-! ## Recent task references (`aoe-telegram-gateway.py` session store) -/

lemma dropWhile_dropWhile_self (p : Char → Bool) (l : List Char) :
    (l.dropWhile p).dropWhile p = l.dropWhile p := by
  induction l with
  | nil => rfl
  | cons a t ih =>
    by_cases h : p a
    · simp [List.dropWhile_cons, h, ih]
    · simp [List.dropWhile_cons, h]

lemma dropWhile_head_false (p : Char → Bool) (l : List Char) :
    l.dropWhile p = [] ∨ ∃ a t, l.dropWhile p = a :: t ∧ p a = false := by
  induction l with
  | nil => exact Or.inl rfl
  | cons a t ih =>
    by_cases h : p a
    · simpa [List.dropWhile_cons, h] using ih
    · exact Or.inr ⟨a, t, by simp [List.dropWhile_cons, h], by simp [h]⟩

lemma strip_right_append (p : Char → Bool) (l : List Char) :
    (l.reverse.dropWhile p).reverse ++ (l.reverse.takeWhile p).reverse = l := by
  have h := List.takeWhile_append_dropWhile p l.reverse
  calc (l.reverse.dropWhile p).reverse ++ (l.reverse.takeWhile p).reverse
      = (l.reverse.takeWhile p ++ l.reverse.dropWhile p).reverse := by
        rw [List.reverse_append]
    _ = l := by rw [h, List.reverse_reverse]

lemma py_strip_chars_idem (l : List Char) :
    py_strip_chars (py_strip_chars l) = py_strip_chars l := by
  unfold py_strip_chars
  set ws := Char.isWhitespace with hws
  set A := l.dropWhile ws with hA
  set R := (A.reverse.dropWhile ws).reverse with hR
  have f3 : R.dropWhile ws = R := by
    rcases hr : R with _ | ⟨r, R2⟩
    · rfl
    · have hpre := strip_right_append ws A
      rw [← hR, hr] at hpre
      have hA2 : A = r :: (R2 ++ (A.reverse.takeWhile ws).reverse) := hpre.symm
      rcases dropWhile_head_false ws l with h0 | ⟨a, t, h1, h2⟩
      · rw [← hA] at h0
        rw [h0] at hA2
        exact absurd hA2 (by simp)
      · rw [← hA] at h1
        rw [h1] at hA2
        injection hA2 with hra
        rw [hra] at h2
        rw [List.dropWhile_cons, h2]
        simp
  have f4 : R.reverse.dropWhile ws = R.reverse := by
    rw [hR, List.reverse_reverse]
    exact dropWhile_dropWhile_self ws A.reverse
  rw [f3, f4, List.reverse_reverse]

lemma py_strip_idem (s : String) : py_strip (py_strip s) = py_strip s := by
  unfold py_strip
  rw [py_strip_chars_idem]

/-- The dedup-and-cap loop of `set_chat_recent_task_refs` (gateway lines
1307-1315): strip each entry, drop empties and repeats, stop after 50 kept
entries.  `seen` carries the already-kept ids. -/
def set_refs_dedup_go (seen : List String) : List String → List String
  | [] => []
  | item :: rest =>
    let rid := py_strip item
    if rid = "" ∨ rid ∈ seen then set_refs_dedup_go seen rest
    else rid :: (if 50 ≤ seen.length + 1 then [] else set_refs_dedup_go (rid :: seen) rest)

/-- The reference list stored by `set_chat_recent_task_refs` (gateway
lines 1295-1336); an empty result models removal of the project key. -/
def set_chat_recent_task_refs_list (refs : List String) : List String :=
  set_refs_dedup_go [] refs

/-- `get_chat_recent_task_refs` (gateway lines 1279-1292): strip entries
and drop empties. -/
def get_chat_recent_task_refs_list (stored : List String) : List String :=
  (stored.map py_strip).filter (fun r => r ≠ "")

/-- `touch_chat_recent_task_ref` (gateway lines 1339-1350): put the
request id first, drop its other occurrences, cap at 50 and store. -/
def touch_chat_recent_task_ref_list (stored : List String) (request_id : String) :
    List String :=
  let rid := py_strip request_id
  if rid = "" then stored
  else
    set_chat_recent_task_refs_list
      ((rid :: (get_chat_recent_task_refs_list stored).filter (fun x => x ≠ rid)).take 50)

lemma set_refs_dedup_go_sound (refs : List String) : ∀ seen : List String,
    (∀ x ∈ set_refs_dedup_go seen refs, x ∉ seen ∧ py_strip x = x ∧ x ≠ "") ∧
    (set_refs_dedup_go seen refs).Nodup ∧
    (seen.length ≤ 49 → seen.length + (set_refs_dedup_go seen refs).length ≤ 50) := by
  induction refs with
  | nil =>
    intro seen
    refine ⟨by simp [set_refs_dedup_go], by simp [set_refs_dedup_go], fun hl => ?_⟩
    simp only [set_refs_dedup_go, List.length_nil]
    omega
  | cons item rest ih =>
    intro seen
    by_cases hskip : py_strip item = "" ∨ py_strip item ∈ seen
    · have hstep : set_refs_dedup_go seen (item :: rest) = set_refs_dedup_go seen rest := by
        simp only [set_refs_dedup_go]
        rw [if_pos hskip]
      rw [hstep]
      exact ih seen
    · have hstep : set_refs_dedup_go seen (item :: rest) =
          py_strip item :: (if 50 ≤ seen.length + 1 then []
            else set_refs_dedup_go (py_strip item :: seen) rest) := by
        simp only [set_refs_dedup_go]
        rw [if_neg hskip]
      push_neg at hskip
      rw [hstep]
      by_cases hstop : 50 ≤ seen.length + 1
      · rw [if_pos hstop]
        refine ⟨?_, by simp, fun hl => by simp only [List.length_cons, List.length_nil]; omega⟩
        intro x hx
        rw [List.mem_singleton] at hx
        subst hx
        exact ⟨hskip.2, py_strip_idem item, hskip.1⟩
      · rw [if_neg hstop]
        obtain ⟨ihm, ihnd, ihlen⟩ := ih (py_strip item :: seen)
        refine ⟨?_, ?_, ?_⟩
        · intro x hx
          rcases List.mem_cons.mp hx with hx | hx
          · subst hx
            exact ⟨hskip.2, py_strip_idem item, hskip.1⟩
          · obtain ⟨hns, hid2, hne2⟩ := ihm x hx
            exact ⟨fun hc => hns (List.mem_cons_of_mem _ hc), hid2, hne2⟩
        · rw [List.nodup_cons]
          exact ⟨fun hc => (ihm _ hc).1 (List.mem_cons_self _ _), ihnd⟩
        · intro hl
          have h2 := ihlen (by simp only [List.length_cons]; omega)
          simp only [List.length_cons] at h2 ⊢
          omega

lemma set_refs_dedup_go_id (refs : List String) : ∀ seen : List String,
    refs.Nodup → (∀ x ∈ refs, py_strip x = x ∧ x ≠ "" ∧ x ∉ seen) →
    seen.length + refs.length ≤ 50 → set_refs_dedup_go seen refs = refs := by
  induction refs with
  | nil => intro seen _ _ _; rfl
  | cons r rest ih =>
    intro seen hnd hw hlen
    obtain ⟨hid, hne, hns⟩ := hw r (List.mem_cons_self _ _)
    have hguard : ¬ (py_strip r = "" ∨ py_strip r ∈ seen) := by
      rw [hid]
      simp [hne, hns]
    have hstep : set_refs_dedup_go seen (r :: rest) =
        py_strip r :: (if 50 ≤ seen.length + 1 then []
          else set_refs_dedup_go (py_strip r :: seen) rest) := by
      simp only [set_refs_dedup_go]
      rw [if_neg hguard]
    rw [hstep, hid]
    by_cases hstop : 50 ≤ seen.length + 1
    · have hrest : rest = [] := by
        rcases rest with _ | ⟨y, ys⟩
        · rfl
        · exfalso
          simp only [List.length_cons] at hlen
          omega
      subst hrest
      rw [if_pos hstop]
    · rw [if_neg hstop]
      have hrec : set_refs_dedup_go (r :: seen) rest = rest := by
        refine ih (r :: seen) hnd.of_cons ?_ ?_
        · intro x hx
          obtain ⟨hxi, hxn, hxs⟩ := hw x (List.mem_cons_of_mem _ hx)
          refine ⟨hxi, hxn, ?_⟩
          intro hc
          rcases List.mem_cons.mp hc with hc1 | hc2
          · exact (List.Nodup.not_mem hnd) (hc1 ▸ hx)
          · exact hxs hc2
        · simp only [List.length_cons] at hlen ⊢
          omega
      rw [hrec]

lemma filter_ne_length_of_nodup (l : List String) (a : String)
    (hn : l.Nodup) (ha : a ∈ l) :
    (l.filter (fun x => x ≠ a)).length + 1 = l.length := by
  induction l with
  | nil => cases ha
  | cons b t ih =>
    by_cases hb : b = a
    · subst hb
      have hbt : b ∉ t := hn.not_mem
      have hfil : t.filter (fun x => x ≠ b) = t := by
        rw [List.filter_eq_self]
        intro x hx
        simp only [ne_eq, decide_eq_true_eq]
        intro hc
        exact hbt (hc ▸ hx)
      simp only [List.filter_cons]
      rw [if_neg (by simp)]
      rw [hfil, List.length_cons]
    · have hat : a ∈ t := by
        rcases List.mem_cons.mp ha with h | h
        · exact absurd h.symm hb
        · exact h
      have h2 := ih hn.of_cons hat
      simp only [List.filter_cons]
      rw [if_pos (by simp [hb])]
      simp only [List.length_cons]
      omega

/-- C7: every stored `recent_task_refs` list (an output of
`set_chat_recent_task_refs`) is duplicate-free and holds at most 50
entries; touching a request id already present produces exactly that id
followed by the remaining entries in order — the id moves to the front
and the length does not change. -/
theorem c7_recent_task_refs_bounded_dedup_mru (refs stored : List String)
    (rid : String)
    (hwf : ∀ x ∈ stored, py_strip x = x ∧ x ≠ "") (hnd : stored.Nodup)
    (hlen : stored.length ≤ 50) (hmem : py_strip rid ∈ stored) :
    (set_chat_recent_task_refs_list refs).Nodup ∧
    (set_chat_recent_task_refs_list refs).length ≤ 50 ∧
    touch_chat_recent_task_ref_list stored rid
      = py_strip rid :: stored.filter (fun x => x ≠ py_strip rid) ∧
    (touch_chat_recent_task_ref_list stored rid).length = stored.length := by
  obtain ⟨_, hnd0, hlen0⟩ := set_refs_dedup_go_sound refs []
  have hbound : (set_chat_recent_task_refs_list refs).length ≤ 50 := by
    have := hlen0 (by simp)
    simpa [set_chat_recent_task_refs_list] using this
  have hridne : py_strip rid ≠ "" := (hwf _ hmem).2
  have hget : get_chat_recent_task_refs_list stored = stored := by
    unfold get_chat_recent_task_refs_list
    have hmap : stored.map py_strip = stored := by
      have : stored.map py_strip = stored.map id :=
        List.map_congr_left (fun x hx => (hwf x hx).1)
      simpa using this
    rw [hmap, List.filter_eq_self]
    intro x hx
    simp [(hwf x hx).2]
  have hfl := filter_ne_length_of_nodup stored (py_strip rid) hnd hmem
  have htake : (py_strip rid :: stored.filter (fun x => x ≠ py_strip rid)).take 50
      = py_strip rid :: stored.filter (fun x => x ≠ py_strip rid) := by
    apply List.take_of_length_le
    simp only [List.length_cons]
    omega
  have hset : set_chat_recent_task_refs_list
      (py_strip rid :: stored.filter (fun x => x ≠ py_strip rid))
      = py_strip rid :: stored.filter (fun x => x ≠ py_strip rid) := by
    unfold set_chat_recent_task_refs_list
    apply set_refs_dedup_go_id
    · refine List.Nodup.cons ?_ (hnd.filter _)
      intro hc
      have := List.of_mem_filter hc
      simp at this
    · intro x hx
      rcases List.mem_cons.mp hx with hx1 | hx2
      · subst hx1
        exact ⟨py_strip_idem rid, hridne, List.not_mem_nil _⟩
      · have hxs := List.mem_of_mem_filter hx2
        exact ⟨(hwf x hxs).1, (hwf x hxs).2, List.not_mem_nil _⟩
    · simp only [List.length_nil, List.length_cons]
      omega
  have htouch : touch_chat_recent_task_ref_list stored rid
      = py_strip rid :: stored.filter (fun x => x ≠ py_strip rid) := by
    unfold touch_chat_recent_task_ref_list
    rw [if_neg hridne, hget, htake, hset]
  refine ⟨hnd0, hbound, htouch, ?_⟩
  rw [htouch]
  simp only [List.length_cons]
  omega

/-- C7 witness: touching `b` in the stored list `[a, b]` yields `[b, a]`
with unchanged length. -/
theorem c7_recent_task_refs_bounded_dedup_mru_witness :
    (set_chat_recent_task_refs_list ["r1", "r1", "r2"]).Nodup ∧
    (set_chat_recent_task_refs_list ["r1", "r1", "r2"]).length ≤ 50 ∧
    touch_chat_recent_task_ref_list ["a", "b"] "b"
      = py_strip "b" :: ["a", "b"].filter (fun x => x ≠ py_strip "b") ∧
    (touch_chat_recent_task_ref_list ["a", "b"] "b").length = (["a", "b"] : List String).length :=
  c7_recent_task_refs_bounded_dedup_mru ["r1", "r1", "r2"] ["a", "b"] "b"
    (by decide) (by decide) (by decide) (by decide)

/-! ## Task alias and short-id assignment (`aoe-telegram-gateway.py`) -/

lemma py_isalnum_not_ws {c : Char} (h : py_isalnum c = true) :
    c.isWhitespace = false := by
  cases hw : c.isWhitespace
  · rfl
  · exfalso
    simp only [Char.isWhitespace, Bool.or_eq_true, decide_eq_true_eq] at hw
    rcases hw with ((h2 | h2) | h2) | h2 <;> subst h2 <;> exact absurd h (by decide)

lemma py_isalnum_ne_dash {c : Char} (h : py_isalnum c = true) : c ≠ '-' := by
  intro h2
  subst h2
  exact absurd h (by decide)

lemma py_char_lower_isalnum {c : Char} (h : py_isalnum c = true) :
    py_isalnum (py_char_lower c) = true := by
  unfold py_char_lower
  split <;> first | decide | exact h

lemma py_char_lower_dash : py_char_lower '-' = '-' := rfl

lemma py_char_lower_underscore : py_char_lower '_' = '_' := rfl

/-- Decimal digit list of a natural number, as rendered by Python's
string formatting. -/
def nat_digits (n : Nat) : List Char :=
  if _h : n < 10 then [Nat.digitChar n]
  else nat_digits (n / 10) ++ [Nat.digitChar (n % 10)]
decreasing_by exact Nat.div_lt_self (by omega) (by omega)

lemma digitChar_facts {d : Nat} (h : d < 10) :
    (Nat.digitChar d).isDigit = true ∧ (Nat.digitChar d).toNat - 48 = d := by
  interval_cases d <;> exact ⟨rfl, rfl⟩

lemma digit_isalnum {c : Char} (h : c.isDigit = true) : py_isalnum c = true := by
  simp only [py_isalnum, Char.isAlphanum, h, Bool.or_true, Bool.true_or]

lemma digit_lower_fixed {c : Char} (h : c.isDigit = true) : py_char_lower c = c := by
  unfold py_char_lower
  split <;> first | (exfalso; exact absurd h (by decide)) | rfl

lemma digit_not_ws {c : Char} (h : c.isDigit = true) : c.isWhitespace = false :=
  py_isalnum_not_ws (digit_isalnum h)

lemma digit_ne_dash {c : Char} (h : c.isDigit = true) : c ≠ '-' :=
  py_isalnum_ne_dash (digit_isalnum h)

lemma nat_digits_all_digit (n : Nat) : ∀ c ∈ nat_digits n, c.isDigit = true := by
  induction n using Nat.strong_induction_on with
  | _ n ih =>
    intro c hc
    by_cases h : n < 10
    · rw [nat_digits, dif_pos h] at hc
      rw [List.mem_singleton] at hc
      subst hc
      exact (digitChar_facts h).1
    · rw [nat_digits, dif_neg h] at hc
      rcases List.mem_append.mp hc with hc1 | hc1
      · exact ih (n / 10) (Nat.div_lt_self (by omega) (by omega)) c hc1
      · rw [List.mem_singleton] at hc1
        subst hc1
        exact (digitChar_facts (Nat.mod_lt n (by omega))).1

lemma nat_digits_ne_nil (n : Nat) : nat_digits n ≠ [] := by
  by_cases h : n < 10
  · rw [nat_digits, dif_pos h]
    simp
  · rw [nat_digits, dif_neg h]
    simp

/-- Value of a decimal digit list, inverse to `nat_digits`. -/
def digits_val (l : List Char) : Nat :=
  l.foldl (fun a c => 10 * a + (c.toNat - 48)) 0

lemma digits_val_step (l : List Char) (c : Char) : ∀ a : Nat,
    (l ++ [c]).foldl (fun a c => 10 * a + (c.toNat - 48)) a =
      10 * (l.foldl (fun a c => 10 * a + (c.toNat - 48)) a) + (c.toNat - 48) := by
  induction l with
  | nil => intro a; rfl
  | cons x t ih => intro a; simp only [List.cons_append, List.foldl_cons, ih]

lemma digits_val_nat_digits (n : Nat) : digits_val (nat_digits n) = n := by
  induction n using Nat.strong_induction_on with
  | _ n ih =>
    by_cases h : n < 10
    · rw [nat_digits, dif_pos h]
      simp [digits_val, (digitChar_facts h).2]
    · rw [nat_digits, dif_neg h]
      unfold digits_val
      rw [digits_val_step]
      have h1 := ih (n / 10) (Nat.div_lt_self (by omega) (by omega))
      unfold digits_val at h1
      rw [h1, (digitChar_facts (Nat.mod_lt n (by omega))).2]
      omega

lemma digits_val_pad (k : Nat) (l : List Char) :
    digits_val (List.replicate k '0' ++ l) = digits_val l := by
  induction k with
  | zero => rfl
  | succ m ih =>
    unfold digits_val at ih ⊢
    simp only [List.replicate_succ, List.cons_append, List.foldl_cons]
    simpa using ih

lemma nat_digits_length_le (k : Nat) : ∀ n : Nat, 1 ≤ k → n < 10 ^ k →
    (nat_digits n).length ≤ k := by
  induction k with
  | zero => intro n h; omega
  | succ m ih =>
    intro n hk hn
    by_cases h : n < 10
    · rw [nat_digits, dif_pos h]
      simp only [List.length_singleton]
      omega
    · rw [nat_digits, dif_neg h]
      have hm : 1 ≤ m := by
        by_contra hm0
        have : m = 0 := by omega
        subst this
        simp only [pow_succ, pow_zero, one_mul] at hn
        omega
      have hdiv : n / 10 < 10 ^ m := by
        rw [Nat.div_lt_iff_lt_mul (by omega : 0 < 10)]
        rw [pow_succ] at hn
        omega
      have := ih (n / 10) hm hdiv
      simp only [List.length_append, List.length_singleton]
      omega

lemma nat_digits_length_lower (k : Nat) : ∀ n : Nat, 10 ^ k ≤ n →
    k + 1 ≤ (nat_digits n).length := by
  induction k with
  | zero =>
    intro n _
    rcases hl : nat_digits n with _ | ⟨c, t⟩
    · exact absurd hl (nat_digits_ne_nil n)
    · simp
  | succ m ih =>
    intro n hn
    have h10 : ¬ n < 10 := by
      have : 10 ≤ 10 ^ (m + 1) := by
        calc 10 = 10 ^ 1 := (pow_one 10).symm
        _ ≤ 10 ^ (m + 1) := Nat.pow_le_pow_right (by omega) (by omega)
      omega
    rw [nat_digits, dif_neg h10]
    have hdiv : 10 ^ m ≤ n / 10 := by
      rw [pow_succ] at hn
      exact Nat.le_div_iff_mul_le (by omega) |>.mpr hn
    have := ih (n / 10) hdiv
    simp only [List.length_append, List.length_singleton]
    omega

lemma nat_digits_inj {m n : Nat} (h : nat_digits m = nat_digits n) : m = n := by
  have h1 := digits_val_nat_digits m
  rw [h] at h1
  rw [digits_val_nat_digits n] at h1
  omega

/-- The alnum-run collapsing loop of `normalize_task_alias_key` (gateway
lines 1705-1713): keep alphanumerics, turn each maximal run of other
characters into a single dash. -/
def collapse_go (sep : Bool) : List Char → List Char
  | [] => []
  | c :: rest =>
    if py_isalnum c then c :: collapse_go false rest
    else if sep then collapse_go true rest
    else '-' :: collapse_go true rest

/-- The separator flag left by the collapsing loop after a list. -/
def sep_after (sep : Bool) : List Char → Bool
  | [] => sep
  | c :: rest => sep_after (if py_isalnum c then false else true) rest

def is_dash (c : Char) : Bool := c = '-'

def is_dash_underscore (c : Char) : Bool := c = '-' || c = '_'

/-- Python `str.strip(chars)`: drop `p`-characters from both ends. -/
def strip_edges (p : Char → Bool) (l : List Char) : List Char :=
  ((l.dropWhile p).reverse.dropWhile p).reverse

/-- `normalize_task_alias_key` (gateway lines 1702-1714): strip and
lowercase, collapse non-alnum runs to dashes, strip edge dashes. -/
def normalize_task_alias_key_chars (l : List Char) : List Char :=
  strip_edges is_dash (collapse_go false ((py_strip_chars l).map py_char_lower))

lemma collapse_append (xs : List Char) : ∀ (sep : Bool) (ys : List Char),
    collapse_go sep (xs ++ ys) = collapse_go sep xs ++ collapse_go (sep_after sep xs) ys := by
  induction xs with
  | nil => intro sep ys; rfl
  | cons c t ih =>
    intro sep ys
    by_cases h : py_isalnum c = true <;> cases sep <;>
      simp [collapse_go, sep_after, h, ih]

lemma sep_after_append (xs : List Char) : ∀ (sep : Bool) (ys : List Char),
    sep_after sep (xs ++ ys) = sep_after (sep_after sep xs) ys := by
  induction xs with
  | nil => intro sep ys; rfl
  | cons c t ih =>
    intro sep ys
    by_cases h : py_isalnum c = true <;> simp [sep_after, h, ih]

lemma collapse_all_alnum (l : List Char) (hall : ∀ c ∈ l, py_isalnum c = true) :
    ∀ sep : Bool, collapse_go sep l = l := by
  induction l with
  | nil => intro sep; rfl
  | cons c t ih =>
    intro sep
    have hc := hall c (List.mem_cons_self _ _)
    simp only [collapse_go, hc, if_pos]
    rw [ih (fun x hx => hall x (List.mem_cons_of_mem _ hx))]

lemma dropWhile_all_false (p : Char → Bool) (l : List Char)
    (h : ∀ c ∈ l, p c = false) : l.dropWhile p = l := by
  cases l with
  | nil => rfl
  | cons c t =>
    rw [List.dropWhile_cons, h c (List.mem_cons_self _ _)]
    simp

lemma py_strip_chars_eq_self (l : List Char)
    (h : ∀ c ∈ l, c.isWhitespace = false) : py_strip_chars l = l := by
  unfold py_strip_chars
  rw [dropWhile_all_false _ l h]
  rw [dropWhile_all_false _ l.reverse (fun c hc => h c (List.mem_reverse.mp hc))]
  exact List.reverse_reverse l

lemma strip_edges_eq_self (p : Char → Bool) (l : List Char)
    (hh : ∀ c t2, l = c :: t2 → p c = false)
    (hl : ∀ c t2, l.reverse = c :: t2 → p c = false) :
    strip_edges p l = l := by
  have h1 : l.dropWhile p = l := by
    cases hc : l with
    | nil => rfl
    | cons c t2 =>
      rw [List.dropWhile_cons, hh c t2 hc]
      simp
  unfold strip_edges
  rw [h1]
  have h2 : l.reverse.dropWhile p = l.reverse := by
    rcases hr : l.reverse with _ | ⟨c, t2⟩
    · rfl
    · rw [List.dropWhile_cons, hl c t2 hr]
      simp
  rw [h2, List.reverse_reverse]

/-- A well-formed alias fragment: non-empty, made of alphanumerics,
dashes and underscores, with alphanumeric first and last characters. -/
def good_fragment (A : List Char) : Prop :=
  A ≠ [] ∧ (∀ c ∈ A, py_isalnum c = true ∨ c = '-' ∨ c = '_') ∧
  (∀ c t, A = c :: t → py_isalnum c = true) ∧
  (∀ c t, A.reverse = c :: t → py_isalnum c = true)

lemma good_fragment_not_ws {A : List Char} (hA : good_fragment A) :
    ∀ c ∈ A, c.isWhitespace = false := by
  intro c hc
  rcases hA.2.1 c hc with h | h | h
  · exact py_isalnum_not_ws h
  · subst h; decide
  · subst h; decide

lemma map_lower_digits {D : List Char} (hD : ∀ c ∈ D, c.isDigit = true) :
    D.map py_char_lower = D := by
  calc D.map py_char_lower = D.map id :=
        List.map_congr_left (fun c hc => digit_lower_fixed (hD c hc))
  _ = D := List.map_id D

lemma sep_after_lower_fragment {A : List Char} (hA : good_fragment A) :
    sep_after false (A.map py_char_lower) = false := by
  rcases hr : A.reverse with _ | ⟨ra, rt⟩
  · exfalso
    exact hA.1 (by simpa using congrArg List.reverse hr)
  · have hAeq : A = rt.reverse ++ [ra] := by
      have := congrArg List.reverse hr
      simpa using this
    have hra : py_isalnum ra = true := hA.2.2.2 ra rt hr
    rw [hAeq, List.map_append, sep_after_append]
    simp only [List.map_cons, List.map_nil, sep_after]
    rw [if_pos (py_char_lower_isalnum hra)]

lemma collapse_lower_fragment_last {A : List Char} (hA : good_fragment A) :
    ∃ Y ra, A.reverse = ra :: (Y : List Char).reverse ∧ py_isalnum ra = true ∧
      collapse_go false (A.map py_char_lower) =
        collapse_go false (Y.map py_char_lower) ++ [py_char_lower ra] := by
  rcases hr : A.reverse with _ | ⟨ra, rt⟩
  · exact absurd (by simpa using congrArg List.reverse hr) hA.1
  · have hAeq : A = rt.reverse ++ [ra] := by
      have := congrArg List.reverse hr
      simpa using this
    have hra : py_isalnum ra = true := hA.2.2.2 ra rt hr
    refine ⟨rt.reverse, ra, by simp [hr], hra, ?_⟩
    rw [hAeq, List.map_append, collapse_append]
    simp only [List.map_cons, List.map_nil]
    have : ∀ s : Bool, collapse_go s [py_char_lower ra] = [py_char_lower ra] := by
      intro s
      simp only [collapse_go]
      rw [if_pos (py_char_lower_isalnum hra)]
    rw [this]

lemma collapse_lower_fragment_head {A : List Char} (hA : good_fragment A) :
    ∃ c0 t0, A = c0 :: t0 ∧ py_isalnum c0 = true ∧
      collapse_go false (A.map py_char_lower) =
        py_char_lower c0 :: collapse_go false (t0.map py_char_lower) := by
  rcases hc : A with _ | ⟨c0, t0⟩
  · exact absurd hc hA.1
  · have h0 : py_isalnum c0 = true := hA.2.2.1 c0 t0 hc
    refine ⟨c0, t0, rfl, h0, ?_⟩
    simp only [List.map_cons, collapse_go]
    rw [if_pos (py_char_lower_isalnum h0)]

lemma normalize_key_fragment {A : List Char} (hA : good_fragment A) :
    normalize_task_alias_key_chars A = collapse_go false (A.map py_char_lower) := by
  unfold normalize_task_alias_key_chars
  rw [py_strip_chars_eq_self A (good_fragment_not_ws hA)]
  obtain ⟨c0, t0, hc, h0, hhead⟩ := collapse_lower_fragment_head hA
  obtain ⟨Y, ra, hrev, hra, hlast⟩ := collapse_lower_fragment_last hA
  apply strip_edges_eq_self
  · intro c t2 h2
    rw [hhead] at h2
    injection h2 with h3
    subst h3
    have := py_isalnum_ne_dash (py_char_lower_isalnum h0)
    simp [is_dash, this]
  · intro c t2 h2
    rw [hlast, List.reverse_append] at h2
    simp only [List.reverse_cons, List.reverse_nil, List.nil_append,
      List.singleton_append] at h2
    injection h2 with h3
    subst h3
    have := py_isalnum_ne_dash (py_char_lower_isalnum hra)
    simp [is_dash, this]

lemma normalize_key_fragment_dash_digits {A D : List Char} (hA : good_fragment A)
    (hD : ∀ c ∈ D, c.isDigit = true) (hDne : D ≠ []) :
    normalize_task_alias_key_chars (A ++ '-' :: D) =
      collapse_go false (A.map py_char_lower) ++ '-' :: D := by
  unfold normalize_task_alias_key_chars
  have hnws : ∀ c ∈ A ++ '-' :: D, c.isWhitespace = false := by
    intro c hc
    rcases List.mem_append.mp hc with hc1 | hc1
    · exact good_fragment_not_ws hA c hc1
    · rcases List.mem_cons.mp hc1 with hc2 | hc2
      · subst hc2; decide
      · exact digit_not_ws (hD c hc2)
  rw [py_strip_chars_eq_self _ hnws, List.map_append]
  have hmapD : ('-' :: D).map py_char_lower = '-' :: D := by
    simp only [List.map_cons, py_char_lower_dash]
    rw [map_lower_digits hD]
  rw [hmapD, collapse_append, sep_after_lower_fragment hA]
  have hcD : collapse_go false ('-' :: D) = '-' :: D := by
    simp only [collapse_go]
    rw [if_neg (by decide), if_neg (by simp)]
    rw [collapse_all_alnum D (fun c hc => digit_isalnum (hD c hc)) true]
  rw [hcD]
  obtain ⟨c0, t0, hc, h0, hhead⟩ := collapse_lower_fragment_head hA
  apply strip_edges_eq_self
  · intro c t2 h2
    rw [hhead] at h2
    rw [List.cons_append] at h2
    injection h2 with h3
    subst h3
    have := py_isalnum_ne_dash (py_char_lower_isalnum h0)
    simp [is_dash, this]
  · intro c t2 h2
    rcases hDr : D.reverse with _ | ⟨d0, dt⟩
    · exact absurd (by simpa using congrArg List.reverse hDr) hDne
    · have : (collapse_go false (A.map py_char_lower) ++ '-' :: D).reverse
          = d0 :: (dt ++ '-' :: (collapse_go false (A.map py_char_lower)).reverse) := by
        rw [List.reverse_append, List.reverse_cons, hDr]
        simp
      rw [this] at h2
      injection h2 with h3
      subst h3
      have hd0 : d0 ∈ D := List.mem_reverse.mp (hDr ▸ List.mem_cons_self _ _)
      have := digit_ne_dash (hD d0 hd0)
      simp [is_dash, this]

def not_space (c : Char) : Bool := c ≠ ' '

/-- Whitespace splitting of Python `str.split()`, specialized to the
space character (after `derive_task_alias_base` cleaning, the only
whitespace left is a space). -/
def split_tokens : List Char → List (List Char)
  | [] => []
  | c :: rest =>
    if c = ' ' then split_tokens rest
    else (c :: rest.takeWhile not_space) :: split_tokens (rest.dropWhile not_space)
termination_by l => l.length
decreasing_by
  · simp_wf
  · simp_wf
    have hd : (rest.dropWhile not_space).length ≤ rest.length :=
      (List.dropWhile_sublist not_space).length_le
    omega

/-- The character cleaning of `derive_task_alias_base` (gateway lines
1734-1739): keep alphanumerics, spaces, dashes and underscores, replace
everything else by a space. -/
def clean_char (c : Char) : Char :=
  if py_isalnum c || c = ' ' || c = '-' || c = '_' then c else ' '

/-- The stopword set of `derive_task_alias_base` (gateway lines 1746-1749). -/
def alias_stop_words : List (List Char) :=
  ["the", "a", "an", "to", "for", "and", "or", "of",
   "해주세요", "해줘", "요청", "작업", "진행", "지금", "바로", "좀"].map String.data

/-- Python `str.rstrip(chars)`. -/
def rstrip_edges (p : Char → Bool) (l : List Char) : List Char :=
  (l.reverse.dropWhile p).reverse

/-- Python `"-".join(...)`. -/
def join_dash : List (List Char) → List Char
  | [] => []
  | [t] => t
  | t :: ts => t ++ '-' :: join_dash ts

/-- The lowercased whitespace-split tokens of the cleaned prompt
(gateway line 1743). -/
def alias_tokens (src : List Char) : List (List Char) :=
  (split_tokens (src.map clean_char)).map (fun t => t.map py_char_lower)

/-- Stopword filtering with fallback to all tokens (gateway line 1750). -/
def alias_picked (tokens : List (List Char)) : List (List Char) :=
  let picked := tokens.filter (fun t => t ∉ alias_stop_words)
  if picked = [] then tokens else picked

/-- First five tokens joined with dashes and edge-stripped of dashes and
underscores (gateway line 1752). -/
def alias_joined (tokens : List (List Char)) : List Char :=
  strip_edges is_dash_underscore (join_dash ((alias_picked tokens).take 5))

/-- The 48-character cap with right strip (gateway lines 1753-1754). -/
def alias_capped (alias0 : List Char) : List Char :=
  if 48 < alias0.length then rstrip_edges is_dash_underscore (alias0.take 48)
  else alias0

/-- `derive_task_alias_base` (gateway lines 1730-1755). -/
def derive_task_alias_base (prompt : List Char) : List Char :=
  let src := py_strip_chars prompt
  if src = [] then "task".data
  else if alias_tokens src = [] then "task".data
  else
    let alias1 := alias_capped (alias_joined (alias_tokens src))
    if alias1 = [] then "task".data else alias1

/-- `format_task_short_id` (gateway lines 1725-1727) on the clamped value. -/
def format_task_short_id_nat (value : Nat) : List Char :=
  if value < 1000 then
    'T' :: '-' :: (List.replicate (3 - (nat_digits value).length) '0' ++ nat_digits value)
  else 'T' :: '-' :: nat_digits value

/-- `format_task_short_id` (gateway lines 1725-1727). -/
def format_task_short_id (seq : Int) : List Char :=
  format_task_short_id_nat (max 1 seq).toNat

/-- The regular expression `T-\d{3,}` of spec property P5 as a decidable
matcher. -/
def matches_short_id : List Char → Bool
  | 'T' :: '-' :: rest => decide (3 ≤ rest.length) && rest.all Char.isDigit
  | _ => false

lemma strip_edges_head (p : Char → Bool) (l : List Char) (c : Char) (t : List Char)
    (h : strip_edges p l = c :: t) : p c = false := by
  have hpre := strip_right_append p (l.dropWhile p)
  unfold strip_edges at h
  rw [h] at hpre
  rcases dropWhile_head_false p l with h0 | ⟨a, t2, h1, h2⟩
  · rw [h0] at hpre
    exact absurd hpre (by simp)
  · rw [h1] at hpre
    rw [List.cons_append] at hpre
    injection hpre with h3 h4
    rw [h3]
    exact h2

lemma strip_edges_reverse_head (p : Char → Bool) (l : List Char) (c : Char)
    (t : List Char) (h : (strip_edges p l).reverse = c :: t) : p c = false := by
  unfold strip_edges at h
  rw [List.reverse_reverse] at h
  rcases dropWhile_head_false p (l.dropWhile p).reverse with h0 | ⟨a, t2, h1, h2⟩
  · rw [h0] at h
    cases h
  · rw [h1] at h
    injection h with h3
    rw [← h3]
    exact h2

lemma rstrip_edges_reverse_head (p : Char → Bool) (l : List Char) (c : Char)
    (t : List Char) (h : (rstrip_edges p l).reverse = c :: t) : p c = false := by
  unfold rstrip_edges at h
  rw [List.reverse_reverse] at h
  rcases dropWhile_head_false p l.reverse with h0 | ⟨a, t2, h1, h2⟩
  · rw [h0] at h
    cases h
  · rw [h1] at h
    injection h with h3
    rw [← h3]
    exact h2

lemma rstrip_edges_head (p : Char → Bool) (l : List Char) (c : Char) (t : List Char)
    (h : rstrip_edges p l = c :: t) : ∃ t2, l = c :: t2 := by
  have hpre := strip_right_append p l
  unfold rstrip_edges at h
  rw [h] at hpre
  rw [List.cons_append] at hpre
  exact ⟨t ++ (l.reverse.takeWhile p).reverse, hpre.symm⟩

lemma take_head (n : Nat) (l : List Char) (c : Char) (t : List Char)
    (h : l.take n = c :: t) : ∃ t2, l = c :: t2 := by
  cases l with
  | nil => simp at h
  | cons a r =>
    cases n with
    | zero => simp at h
    | succ m =>
      rw [List.take_succ_cons] at h
      injection h with h1
      exact ⟨r, by rw [h1]⟩

lemma mem_strip_edges (p : Char → Bool) (l : List Char) (c : Char)
    (h : c ∈ strip_edges p l) : c ∈ l := by
  unfold strip_edges at h
  rw [List.mem_reverse] at h
  have h2 := (List.dropWhile_sublist p).subset h
  rw [List.mem_reverse] at h2
  exact (List.dropWhile_sublist p).subset h2

lemma mem_rstrip_edges (p : Char → Bool) (l : List Char) (c : Char)
    (h : c ∈ rstrip_edges p l) : c ∈ l := by
  unfold rstrip_edges at h
  rw [List.mem_reverse] at h
  have h2 := (List.dropWhile_sublist p).subset h
  rw [List.mem_reverse] at h2
  exact h2

lemma join_dash_mem : ∀ (ts : List (List Char)) (c : Char), c ∈ join_dash ts →
    (∃ t ∈ ts, c ∈ t) ∨ c = '-' := by
  intro ts
  induction ts with
  | nil => intro c hc; simp [join_dash] at hc
  | cons t ts2 ih =>
    intro c hc
    cases ts2 with
    | nil =>
      simp only [join_dash] at hc
      exact Or.inl ⟨t, List.mem_cons_self _ _, hc⟩
    | cons u us =>
      simp only [join_dash] at hc
      rcases List.mem_append.mp hc with h1 | h1
      · exact Or.inl ⟨t, List.mem_cons_self _ _, h1⟩
      · rcases List.mem_cons.mp h1 with h2 | h2
        · exact Or.inr h2
        · rcases ih c h2 with ⟨t2, ht2, hct⟩ | h3
          · exact Or.inl ⟨t2, List.mem_cons_of_mem _ ht2, hct⟩
          · exact Or.inr h3

lemma split_tokens_sound (n : Nat) : ∀ l : List Char, l.length ≤ n →
    ∀ t ∈ split_tokens l, t ≠ [] ∧ ∀ c ∈ t, c ∈ l ∧ c ≠ ' ' := by
  induction n with
  | zero =>
    intro l hl t ht
    have : l = [] := List.length_eq_zero.mp (by omega)
    subst this
    simp [split_tokens] at ht
  | succ m ih =>
    intro l hl t ht
    cases l with
    | nil => simp [split_tokens] at ht
    | cons c rest =>
      by_cases hc : c = ' '
      · rw [split_tokens, if_pos hc] at ht
        obtain ⟨htne, hmem⟩ := ih rest (by simp at hl; omega) t ht
        exact ⟨htne, fun x hx =>
          ⟨List.mem_cons_of_mem _ (hmem x hx).1, (hmem x hx).2⟩⟩
      · rw [split_tokens, if_neg hc] at ht
        rcases List.mem_cons.mp ht with h1 | h1
        · subst h1
          refine ⟨by simp, ?_⟩
          intro x hx
          rcases List.mem_cons.mp hx with h2 | h2
          · subst h2
            exact ⟨List.mem_cons_self _ _, hc⟩
          · have hx2 : x ∈ rest := (List.takeWhile_sublist _).subset h2
            have hpx := List.mem_takeWhile_imp h2
            rw [not_space] at hpx
            simp only [ne_eq, decide_not, Bool.not_eq_true', decide_eq_false_iff_not] at hpx
            exact ⟨List.mem_cons_of_mem _ hx2, hpx⟩
        · have hlen : (rest.dropWhile not_space).length ≤ m := by
            have h2 : (rest.dropWhile not_space).length ≤ rest.length :=
              (List.dropWhile_sublist not_space).length_le
            simp only [List.length_cons] at hl
            omega
          obtain ⟨htne, hmem⟩ := ih _ hlen t h1
          refine ⟨htne, fun x hx => ?_⟩
          have h3 := hmem x hx
          exact ⟨List.mem_cons_of_mem _ ((List.dropWhile_sublist _).subset h3.1), h3.2⟩

lemma clean_char_class (c : Char) :
    py_isalnum (clean_char c) = true ∨ clean_char c = ' ' ∨
      clean_char c = '-' ∨ clean_char c = '_' := by
  unfold clean_char
  split_ifs with h
  · simp only [Bool.or_eq_true, decide_eq_true_eq] at h
    rcases h with ((h | h) | h) | h
    · exact Or.inl h
    · exact Or.inr (Or.inl h)
    · exact Or.inr (Or.inr (Or.inl h))
    · exact Or.inr (Or.inr (Or.inr h))
  · exact Or.inr (Or.inl rfl)

lemma alias_tokens_class (src : List Char) (t : List Char)
    (ht : t ∈ alias_tokens src) :
    ∀ c ∈ t, py_isalnum c = true ∨ c = '-' ∨ c = '_' := by
  unfold alias_tokens at ht
  rcases List.mem_map.mp ht with ⟨t0, ht0, rfl⟩
  obtain ⟨_, hmem⟩ := split_tokens_sound (src.map clean_char).length
    (src.map clean_char) le_rfl t0 ht0
  intro c hc
  rcases List.mem_map.mp hc with ⟨c0, hc0, rfl⟩
  obtain ⟨hc0mem, hc0ne⟩ := hmem c0 hc0
  rcases List.mem_map.mp hc0mem with ⟨c1, _, rfl⟩
  rcases clean_char_class c1 with h | h | h | h
  · exact Or.inl (py_char_lower_isalnum h)
  · exact absurd h hc0ne
  · rw [h, py_char_lower_dash]
    exact Or.inr (Or.inl rfl)
  · rw [h, py_char_lower_underscore]
    exact Or.inr (Or.inr rfl)

lemma alias_picked_subset (tokens : List (List Char)) (t : List Char)
    (ht : t ∈ alias_picked tokens) : t ∈ tokens := by
  simp only [alias_picked] at ht
  split_ifs at ht with h
  · exact ht
  · exact List.mem_of_mem_filter ht

lemma alias_joined_class (tokens : List (List Char)) (c : Char)
    (hc : c ∈ alias_joined tokens)
    (htok : ∀ t ∈ tokens, ∀ x ∈ t, py_isalnum x = true ∨ x = '-' ∨ x = '_') :
    py_isalnum c = true ∨ c = '-' ∨ c = '_' := by
  unfold alias_joined at hc
  have h1 := mem_strip_edges _ _ _ hc
  rcases join_dash_mem _ _ h1 with ⟨t, ht, hct⟩ | h2
  · have ht2 : t ∈ alias_picked tokens := List.take_subset _ _ ht
    exact htok t (alias_picked_subset tokens t ht2) c hct
  · exact Or.inr (Or.inl h2)

lemma alias_capped_mem (alias0 : List Char) (c : Char)
    (hc : c ∈ alias_capped alias0) : c ∈ alias0 := by
  unfold alias_capped at hc
  split_ifs at hc with h
  · exact List.take_subset _ _ (mem_rstrip_edges _ _ _ hc)
  · exact hc

lemma good_fragment_task : good_fragment ("task".data) := by
  have he : "task".data = ['t', 'a', 's', 'k'] := rfl
  unfold good_fragment
  rw [he]
  refine ⟨by decide, by decide, ?_, ?_⟩
  · intro c t h
    injection h with h1 _
    rw [← h1]
    decide
  · intro c t h
    have hr : (['t', 'a', 's', 'k'] : List Char).reverse = ['k', 's', 'a', 't'] := by
      decide
    rw [hr] at h
    injection h with h1 _
    rw [← h1]
    decide

lemma good_of_parts {A : List Char} (hne : A ≠ [])
    (hcls : ∀ c ∈ A, py_isalnum c = true ∨ c = '-' ∨ c = '_')
    (hhead : ∀ c t, A = c :: t → is_dash_underscore c = false)
    (hlast : ∀ c t, A.reverse = c :: t → is_dash_underscore c = false) :
    good_fragment A := by
  refine ⟨hne, hcls, ?_, ?_⟩
  · intro c t h
    have h1 := hhead c t h
    have h2 : c ∈ A := h ▸ List.mem_cons_self _ _
    rcases hcls c h2 with h3 | h3 | h3
    · exact h3
    · subst h3
      exact absurd h1 (by decide)
    · subst h3
      exact absurd h1 (by decide)
  · intro c t h
    have h1 := hlast c t h
    have h2 : c ∈ A := by
      rw [← List.mem_reverse, h]
      exact List.mem_cons_self _ _
    rcases hcls c h2 with h3 | h3 | h3
    · exact h3
    · subst h3
      exact absurd h1 (by decide)
    · subst h3
      exact absurd h1 (by decide)

/-- The alias base derived from any prompt is a non-empty string of
alphanumerics, dashes and underscores with alphanumeric endpoints. -/
lemma derive_task_alias_base_good (prompt : List Char) :
    good_fragment (derive_task_alias_base prompt) := by
  simp only [derive_task_alias_base]
  split_ifs with h1 h2 h3
  · exact good_fragment_task
  · exact good_fragment_task
  · exact good_fragment_task
  · apply good_of_parts h3
    · intro c hc
      have hc2 := alias_capped_mem _ c hc
      exact alias_joined_class _ c hc2 (fun t ht x hx => alias_tokens_class _ t ht x hx)
    · intro c t h
      unfold alias_capped at h
      split_ifs at h with h4
      · obtain ⟨t2, h5⟩ := rstrip_edges_head _ _ _ _ h
        obtain ⟨t3, h6⟩ := take_head _ _ _ _ h5
        unfold alias_joined at h6
        exact strip_edges_head is_dash_underscore _ c t3 h6
      · unfold alias_joined at h
        exact strip_edges_head is_dash_underscore _ c t h
    · intro c t h
      unfold alias_capped at h
      split_ifs at h with h4
      · exact rstrip_edges_reverse_head _ _ _ _ h
      · unfold alias_joined at h
        exact strip_edges_reverse_head _ _ _ _ h

/-- The digit block of a formatted short id: zero-padded to width 3. -/
def short_digit_part (value : Nat) : List Char :=
  if value < 1000 then
    List.replicate (3 - (nat_digits value).length) '0' ++ nat_digits value
  else nat_digits value

lemma format_task_short_id_nat_eq (value : Nat) :
    format_task_short_id_nat value = 'T' :: '-' :: short_digit_part value := by
  unfold format_task_short_id_nat short_digit_part
  split_ifs <;> rfl

lemma short_digit_part_digits (value : Nat) :
    ∀ c ∈ short_digit_part value, c.isDigit = true := by
  intro c hc
  unfold short_digit_part at hc
  split_ifs at hc with h
  · rcases List.mem_append.mp hc with h1 | h1
    · rw [List.eq_of_mem_replicate h1]
      decide
    · exact nat_digits_all_digit value c h1
  · exact nat_digits_all_digit value c hc

lemma short_digit_part_ne_nil (value : Nat) : short_digit_part value ≠ [] := by
  unfold short_digit_part
  split_ifs with h
  · intro hcontra
    rcases List.append_eq_nil.mp hcontra with ⟨_, h2⟩
    exact nat_digits_ne_nil value h2
  · exact nat_digits_ne_nil value

lemma short_digit_part_length (value : Nat) : 3 ≤ (short_digit_part value).length := by
  unfold short_digit_part
  split_ifs with h
  · rw [List.length_append, List.length_replicate]
    have h1 : (nat_digits value).length ≤ 3 :=
      nat_digits_length_le 3 value (by omega) (by omega)
    omega
  · have h2 : 3 + 1 ≤ (nat_digits value).length :=
      nat_digits_length_lower 3 value (by omega)
    omega

lemma short_digit_part_val (value : Nat) :
    digits_val (short_digit_part value) = value := by
  unfold short_digit_part
  split_ifs with h
  · rw [digits_val_pad, digits_val_nat_digits]
  · exact digits_val_nat_digits value

lemma short_digit_part_inj {v1 v2 : Nat}
    (h : short_digit_part v1 = short_digit_part v2) : v1 = v2 := by
  have h1 := congrArg digits_val h
  rwa [short_digit_part_val, short_digit_part_val] at h1

lemma matches_short_id_cons (rest : List Char) :
    matches_short_id ('T' :: '-' :: rest) =
      (decide (3 ≤ rest.length) && rest.all Char.isDigit) := rfl

lemma matches_format_short_id_nat (v : Nat) :
    matches_short_id (format_task_short_id_nat v) = true := by
  rw [format_task_short_id_nat_eq, matches_short_id_cons]
  rw [Bool.and_eq_true, decide_eq_true_eq, List.all_eq_true]
  exact ⟨short_digit_part_length v,
    fun c hc => short_digit_part_digits v c (by simpa using hc)⟩

lemma good_fragment_upper_t : good_fragment ['T'] := by
  unfold good_fragment
  refine ⟨by decide, by decide, ?_, ?_⟩
  · intro c t h
    injection h with h1 _
    rw [← h1]
    decide
  · intro c t h
    have hr : (['T'] : List Char).reverse = ['T'] := rfl
    rw [hr] at h
    injection h with h1 _
    rw [← h1]
    decide

lemma normalize_format_short_id (value : Nat) :
    normalize_task_alias_key_chars (format_task_short_id_nat value) =
      't' :: '-' :: short_digit_part value := by
  rw [format_task_short_id_nat_eq]
  have h1 : ('T' : Char) :: '-' :: short_digit_part value =
      ['T'] ++ '-' :: short_digit_part value := rfl
  rw [h1, normalize_key_fragment_dash_digits good_fragment_upper_t
    (short_digit_part_digits value) (short_digit_part_ne_nil value)]
  have h2 : collapse_go false ((['T'] : List Char).map py_char_lower) = ['t'] := by
    decide
  rw [h2]
  rfl

lemma normalize_format_inj {v1 v2 : Nat}
    (h : normalize_task_alias_key_chars (format_task_short_id_nat v1) =
         normalize_task_alias_key_chars (format_task_short_id_nat v2)) : v1 = v2 := by
  rw [normalize_format_short_id, normalize_format_short_id] at h
  injection h with _ h2
  injection h2 with _ h3
  exact short_digit_part_inj h3

lemma format_short_id_ofNat (n : Nat) (h : 1 ≤ n) :
    format_task_short_id (n : Int) = format_task_short_id_nat n := by
  unfold format_task_short_id
  have h1 : max 1 ((n : Int)) = (n : Int) := max_eq_right (by omega)
  rw [h1]
  have h2 : ((n : Int)).toNat = n := Int.toNat_ofNat n
  rw [h2]

/-- Lookup in the project's `task_alias_index`, modelled as an
association list from normalized keys to request ids. -/
def alias_index_lookup (index : List (List Char × List Char))
    (key : List Char) : Option (List Char) :=
  (index.find? (fun kv => decide (kv.1 = key))).map Prod.snd

/-- The availability test of `assign_task_alias` (gateway lines 1836,
1851): `if not owner or owner == req_id`. -/
def alias_free (index : List (List Char × List Char))
    (req_id key : List Char) : Bool :=
  match alias_index_lookup index key with
  | none => true
  | some owner => decide (owner = []) || decide (owner = req_id)

/-- The candidate probed at step `i` of the alias collision loop
(gateway lines 1848-1857): the base itself first, then `base-2`,
`base-3`, and so on. -/
def alias_candidate (base : List Char) : Nat → List Char
  | 0 => base
  | k + 1 => base ++ '-' :: nat_digits (k + 2)

/-- The `while True` probing loops of `assign_task_alias`, with explicit
fuel: try `cand i`, `cand (i+1)`, ... until the normalized key is free. -/
def find_free_go (index : List (List Char × List Char)) (req_id : List Char)
    (cand : Nat → List Char) : Nat → Nat → Option Nat
  | 0, _ => none
  | fuel + 1, i =>
    if alias_free index req_id (normalize_task_alias_key_chars (cand i))
    then some i
    else find_free_go index req_id cand fuel (i + 1)

/-- The short-id loop of `assign_task_alias` (gateway lines 1830-1841):
starting from the stored sequence counter, probe `T-…` ids until one is
free, returning the adopted counter and the formatted id. -/
def assign_short_id_from_seq (index : List (List Char × List Char))
    (req_id : List Char) (seq : Nat) : Option (Nat × List Char) :=
  (find_free_go index req_id (fun n => format_task_short_id (n : Int))
      (index.length + 1) (seq + 1)).map
    (fun n => (n, format_task_short_id (n : Int)))

/-- The alias loop of `assign_task_alias` (gateway lines 1845-1857):
probe the base, then suffixed candidates, until the key is free. -/
def assign_alias_from_base (index : List (List Char × List Char))
    (req_id base : List Char) : Option (List Char) :=
  (find_free_go index req_id (alias_candidate base) (index.length + 1) 0).map
    (alias_candidate base)

lemma alias_free_false_mem (index : List (List Char × List Char))
    (req_id key : List Char) (h : alias_free index req_id key = false) :
    key ∈ index.map Prod.fst := by
  unfold alias_free at h
  cases hl : alias_index_lookup index key with
  | none => rw [hl] at h; cases h
  | some owner =>
    unfold alias_index_lookup at hl
    rcases Option.map_eq_some'.mp hl with ⟨kv, hfind, _⟩
    have hkv := List.find?_some hfind
    have hmem := List.mem_of_find?_eq_some hfind
    simp only [decide_eq_true_eq] at hkv
    rw [← hkv]
    exact List.mem_map_of_mem Prod.fst hmem

lemma find_free_go_none (index : List (List Char × List Char))
    (req_id : List Char) (cand : Nat → List Char) : ∀ fuel start,
    find_free_go index req_id cand fuel start = none →
    ∀ k, k < fuel →
      alias_free index req_id
        (normalize_task_alias_key_chars (cand (start + k))) = false := by
  intro fuel
  induction fuel with
  | zero => intro start _ k hk; omega
  | succ m ih =>
    intro start h k hk
    simp only [find_free_go] at h
    split_ifs at h with hf
    cases k with
    | zero =>
      simp only [Nat.add_zero]
      simpa using hf
    | succ k2 =>
      have h2 := ih (start + 1) h k2 (by omega)
      have h3 : start + 1 + k2 = start + (k2 + 1) := by omega
      rwa [h3] at h2

lemma find_free_go_some_spec (index : List (List Char × List Char))
    (req_id : List Char) (cand : Nat → List Char) : ∀ fuel start n,
    find_free_go index req_id cand fuel start = some n →
    start ≤ n ∧
      alias_free index req_id
        (normalize_task_alias_key_chars (cand n)) = true := by
  intro fuel
  induction fuel with
  | zero => intro start n h; cases h
  | succ m ih =>
    intro start n h
    simp only [find_free_go] at h
    split_ifs at h with hf
    · injection h with h1
      subst h1
      exact ⟨le_rfl, hf⟩
    · obtain ⟨h1, h2⟩ := ih (start + 1) n h
      exact ⟨by omega, h2⟩

/-- Totality of the probing loops: distinct candidates have distinct
normalized keys, and the index holds only `index.length` keys, so within
`index.length + 1` probes a free key is found. -/
lemma find_free_go_total (index : List (List Char × List Char))
    (req_id : List Char) (cand : Nat → List Char) (start : Nat)
    (hinj : ∀ i j, start ≤ i → start ≤ j →
      normalize_task_alias_key_chars (cand i) =
        normalize_task_alias_key_chars (cand j) → i = j) :
    ∃ n, find_free_go index req_id cand (index.length + 1) start = some n := by
  by_contra hno
  push_neg at hno
  have hnone : find_free_go index req_id cand (index.length + 1) start = none := by
    cases hopt : find_free_go index req_id cand (index.length + 1) start with
    | none => rfl
    | some n => exact absurd rfl (hopt ▸ hno n)
  have hblocked := find_free_go_none index req_id cand (index.length + 1) start hnone
  have hsub : ((List.range (index.length + 1)).map
      (fun k => normalize_task_alias_key_chars (cand (start + k)))) ⊆
      index.map Prod.fst := by
    intro x hx
    rcases List.mem_map.mp hx with ⟨k, hk, rfl⟩
    have hk2 := List.mem_range.mp hk
    exact alias_free_false_mem index req_id _ (hblocked k hk2)
  have hnodup : ((List.range (index.length + 1)).map
      (fun k => normalize_task_alias_key_chars (cand (start + k)))).Nodup := by
    apply List.Nodup.map_on
    · intro i _ j _ hij
      have h1 := hinj (start + i) (start + j) (by omega) (by omega) hij
      omega
    · exact List.nodup_range _
  have hlen := (List.subperm_of_subset hnodup hsub).length_le
  rw [List.length_map, List.length_range, List.length_map] at hlen
  omega

lemma alias_candidate_key_inj {base : List Char} (hb : good_fragment base)
    (i j : Nat)
    (h : normalize_task_alias_key_chars (alias_candidate base i) =
         normalize_task_alias_key_chars (alias_candidate base j)) : i = j := by
  have hnorm : ∀ k : Nat, normalize_task_alias_key_chars (alias_candidate base (k + 1)) =
      collapse_go false (base.map py_char_lower) ++ '-' :: nat_digits (k + 2) := by
    intro k
    show normalize_task_alias_key_chars (base ++ '-' :: nat_digits (k + 2)) = _
    exact normalize_key_fragment_dash_digits hb
      (nat_digits_all_digit (k + 2)) (nat_digits_ne_nil (k + 2))
  have hlen : ∀ k : Nat, 1 ≤ (nat_digits k).length := by
    intro k
    have := nat_digits_ne_nil k
    cases hc : nat_digits k with
    | nil => exact absurd hc this
    | cons a t => simp
  cases i with
  | zero =>
    cases j with
    | zero => rfl
    | succ j2 =>
      exfalso
      rw [hnorm j2] at h
      have h0 : normalize_task_alias_key_chars (alias_candidate base 0) =
          collapse_go false (base.map py_char_lower) := normalize_key_fragment hb
      rw [h0] at h
      have := congrArg List.length h
      simp only [List.length_append, List.length_cons] at this
      have := hlen (j2 + 2)
      omega
  | succ i2 =>
    cases j with
    | zero =>
      exfalso
      rw [hnorm i2] at h
      have h0 : normalize_task_alias_key_chars (alias_candidate base 0) =
          collapse_go false (base.map py_char_lower) := normalize_key_fragment hb
      rw [h0] at h
      have := congrArg List.length h
      simp only [List.length_append, List.length_cons] at this
      have := hlen (i2 + 2)
      omega
    | succ j2 =>
      rw [hnorm i2, hnorm j2] at h
      have h2 := List.append_cancel_left h
      injection h2 with _ h3
      have h4 := nat_digits_inj h3
      omega

lemma short_id_candidate_key_inj (i j : Nat) (hi : 1 ≤ i) (hj : 1 ≤ j)
    (h : normalize_task_alias_key_chars (format_task_short_id (i : Int)) =
         normalize_task_alias_key_chars (format_task_short_id (j : Int))) :
    i = j := by
  rw [format_short_id_ofNat i hi, format_short_id_ofNat j hj] at h
  exact normalize_format_inj h

/-- C6: the short-id loop always adopts a fresh `T-…` id matching
`T-\d{3,}` past the stored counter, and the alias loop always adopts the
derived base or a `-k` suffixed variant (`k ≥ 2`) whose normalized key is
free in the project's alias index (unowned, or owned by the task itself). -/
theorem c6_alias_assignment (index : List (List Char × List Char))
    (req_id prompt : List Char) (seq : Nat) :
    (∀ s : Int, matches_short_id (format_task_short_id s) = true) ∧
    (∃ n cand, assign_short_id_from_seq index req_id seq = some (n, cand) ∧
      seq < n ∧ cand = format_task_short_id_nat n ∧
      matches_short_id cand = true ∧
      alias_free index req_id (normalize_task_alias_key_chars cand) = true) ∧
    (∃ a, assign_alias_from_base index req_id (derive_task_alias_base prompt) =
        some a ∧
      (a = derive_task_alias_base prompt ∨
        ∃ k, 2 ≤ k ∧
          a = derive_task_alias_base prompt ++ '-' :: nat_digits k) ∧
      alias_free index req_id (normalize_task_alias_key_chars a) = true) := by
  refine ⟨?_, ?_, ?_⟩
  · intro s
    unfold format_task_short_id
    exact matches_format_short_id_nat _
  · obtain ⟨n, hn⟩ := find_free_go_total index req_id
      (fun n => format_task_short_id (n : Int)) (seq + 1)
      (fun i j hi hj hij =>
        short_id_candidate_key_inj i j (by omega) (by omega) hij)
    obtain ⟨hge, hfree⟩ := find_free_go_some_spec index req_id
      (fun n => format_task_short_id (n : Int)) (index.length + 1) (seq + 1) n hn
    have h1n : 1 ≤ n := by omega
    refine ⟨n, format_task_short_id_nat n, ?_, by omega, rfl, ?_, ?_⟩
    · unfold assign_short_id_from_seq
      rw [hn]
      simp only [Option.map_some']
      rw [format_short_id_ofNat n h1n]
    · exact matches_format_short_id_nat n
    · have := hfree
      rwa [format_short_id_ofNat n h1n] at this
  · have hb := derive_task_alias_base_good prompt
    obtain ⟨i, hi⟩ := find_free_go_total index req_id
      (alias_candidate (derive_task_alias_base prompt)) 0
      (fun a b _ _ hab => alias_candidate_key_inj hb a b hab)
    obtain ⟨_, hfree⟩ := find_free_go_some_spec index req_id
      (alias_candidate (derive_task_alias_base prompt)) (index.length + 1) 0 i hi
    refine ⟨alias_candidate (derive_task_alias_base prompt) i, ?_, ?_, hfree⟩
    · unfold assign_alias_from_base
      rw [hi]
      rfl
    · cases i with
      | zero => exact Or.inl rfl
      | succ k2 => exact Or.inr ⟨k2 + 2, by omega, rfl⟩

end AoeGateway
